import Mathlib

/-!
# Token-bucket rate limiter of the auth service

Shallow embedding of
`services/auth-service/internal/middleware/token_bucket_memory.go` and
`services/auth-service/internal/middleware/token_bucket_redis.go`.

Conventions of the embedding.

* Go `int` and `int64` values are `Int`; the one place where `int64` arithmetic can
  overflow (`time.Duration(..) * time.Second`) wraps explicitly modulo `2^64`.
* Go `float64` and Lua numbers are `ℚ`: arithmetic is exact, so rounding, infinities and
  NaN are outside the model (division by zero follows `ℚ`, where `x / 0 = 0`). Where
  rounding decides a statement, the definitions whose names end in `64` round every
  `float64` operation with `round64`.
* A `time.Time` produced by `time.Now()` is the integer number of nanoseconds of its
  clock reading, a `time.Duration` is an integer number of nanoseconds. `time.Now()` is
  an input of every operation that calls it.
* Mutexes are not data. Every operation is modelled as it runs when no other goroutine
  interleaves with it, returning the new limiter next to its Go results.
-/

namespace Middleware

/-! ## Pieces of the Go runtime and of package `time` used by the limiter -/

/-- The constant `time.Second`, in nanoseconds. -/
def Second : Int := 1000000000

/-- The constant `time.Minute`, in nanoseconds. -/
def Minute : Int := 60 * Second

/-- Two's-complement wrap-around of an `int64` result. -/
def wrapInt64 (n : Int) : Int := (n + 2 ^ 63) % 2 ^ 64 - 2 ^ 63

/-- Conversion `int64(x)` (here `time.Duration(x)`) of a `float64`: the fraction is
discarded (truncation toward zero). For a value outside the `int64` range the Go
specification leaves the result to the implementation; the model takes the value
produced on amd64, the smallest `int64`. -/
def floatToInt64 (x : ℚ) : Int :=
  let n : Int := if 0 ≤ x then ⌊x⌋ else ⌈x⌉
  if -(2 ^ 63) ≤ n ∧ n < 2 ^ 63 then n else -(2 ^ 63)

/-- The method `Time.Sub` on two values of `time.Now()` of one process: the difference
of their clock readings. Readings are non-negative `int64` values, so the difference
never reaches the bounds at which `Sub` saturates. -/
def Time.Sub (t u : Int) : Int := t - u

/-- The method `Duration.Seconds`: whole seconds plus the fractional remainder. -/
def Duration.Seconds (d : Int) : ℚ :=
  let sec := Int.tdiv d Second
  let nsec := Int.tmod d Second
  (sec : ℚ) + (nsec : ℚ) / 1000000000

/-! ## Memory backend (`token_bucket_memory.go`) -/

/-- The struct `tokenBucket`. -/
structure tokenBucket where
  tokens : ℚ
  lastRefill : Int
deriving DecidableEq

/-- The struct `MemoryTokenBucket`; `buckets` is the Go map. -/
structure MemoryTokenBucket where
  buckets : String → Option tokenBucket
  capacity : Int
  refillRate : ℚ
  tokensPerReq : Int

/-- The function `NewMemoryTokenBucket`: an empty map and the given configuration. -/
def NewMemoryTokenBucket (capacity : Int) (refillRate : ℚ) (tokensPerReq : Int) :
    MemoryTokenBucket :=
  { buckets := fun _ => none
    capacity := capacity
    refillRate := refillRate
    tokensPerReq := tokensPerReq }

/-- Writing through the pointer held in the map: the entry of `identifier` becomes
`bucket`. -/
def MemoryTokenBucket.store (mtb : MemoryTokenBucket) (identifier : String)
    (bucket : tokenBucket) : MemoryTokenBucket :=
  { mtb with buckets := Function.update mtb.buckets identifier (some bucket) }

/-- The method `getOrCreateBucket`; `clock` is the reading of its `time.Now()`. -/
def MemoryTokenBucket.getOrCreateBucket (mtb : MemoryTokenBucket) (identifier : String)
    (clock : Int) : MemoryTokenBucket × tokenBucket :=
  match mtb.buckets identifier with
  | some bucket => (mtb, bucket)
  | none =>
    -- double check after acquiring the write lock
    match mtb.buckets identifier with
    | some bucket => (mtb, bucket)
    | none =>
      let bucket : tokenBucket := { tokens := (mtb.capacity : ℚ), lastRefill := clock }
      (mtb.store identifier bucket, bucket)

/-- The three results of `AllowRequestWithTokens` of the memory backend. -/
structure Decision where
  allowed : Bool
  remainingTokens : ℚ
  waitTime : Int
deriving DecidableEq

/-- The method `MemoryTokenBucket.AllowRequestWithTokens`. `created` is the reading of
the `time.Now()` inside `getOrCreateBucket`, `now` the reading of its own
`time.Now()`. -/
def MemoryTokenBucket.AllowRequestWithTokens (mtb : MemoryTokenBucket)
    (identifier : String) (tokensNeeded : Int) (created now : Int) :
    MemoryTokenBucket × Decision :=
  let (mtb1, bucket) := mtb.getOrCreateBucket identifier created
  let timeElapsed := Duration.Seconds (Time.Sub now bucket.lastRefill)
  let tokensToAdd := timeElapsed * mtb.refillRate
  let tokens := min (mtb.capacity : ℚ) (bucket.tokens + tokensToAdd)
  if tokens ≥ (tokensNeeded : ℚ) then
    let tokens1 := tokens - (tokensNeeded : ℚ)
    (mtb1.store identifier { tokens := tokens1, lastRefill := now },
      { allowed := true, remainingTokens := tokens1, waitTime := 0 })
  else
    let deficit := (tokensNeeded : ℚ) - tokens
    let waitTime := wrapInt64 (floatToInt64 (deficit / mtb.refillRate) * Second)
    (mtb1.store identifier { tokens := tokens, lastRefill := now },
      { allowed := false, remainingTokens := tokens, waitTime := waitTime })

/-- The method `MemoryTokenBucket.AllowRequest`. -/
def MemoryTokenBucket.AllowRequest (mtb : MemoryTokenBucket) (identifier : String)
    (created now : Int) : MemoryTokenBucket × Decision :=
  mtb.AllowRequestWithTokens identifier mtb.tokensPerReq created now

/-- The method `MemoryTokenBucket.GetBucketState`, with the same two clock readings as
`AllowRequestWithTokens`; the results are the new limiter and the returned pair. -/
def MemoryTokenBucket.GetBucketState (mtb : MemoryTokenBucket) (identifier : String)
    (created now : Int) : MemoryTokenBucket × ℚ × Int :=
  let (mtb1, bucket) := mtb.getOrCreateBucket identifier created
  let timeElapsed := Duration.Seconds (Time.Sub now bucket.lastRefill)
  let tokensToAdd := timeElapsed * mtb.refillRate
  let tokens := min (mtb.capacity : ℚ) (bucket.tokens + tokensToAdd)
  (mtb1.store identifier { tokens := tokens, lastRefill := now }, tokens, now)

/-! ### Call sequences on one identifier of the memory backend -/

/-- One call on the memory backend with the two clock readings it takes: `created` in
`getOrCreateBucket`, then `now` under the bucket's lock. -/
inductive Call where
  | allow (tokensNeeded : Int) (created now : Int)
  | inspect (created now : Int)
deriving DecidableEq

/-- The cost a call asks for; `GetBucketState` asks for none. -/
def Call.cost : Call → Int
  | .allow tokensNeeded _ _ => tokensNeeded
  | .inspect _ _ => 0

/-- The first clock reading of a call. -/
def Call.created : Call → Int
  | .allow _ created _ => created
  | .inspect created _ => created

/-- The second clock reading of a call. -/
def Call.now : Call → Int
  | .allow _ _ now => now
  | .inspect _ now => now

/-- The limiter after one call on `identifier`. -/
def MemoryTokenBucket.call (mtb : MemoryTokenBucket) (identifier : String) :
    Call → MemoryTokenBucket
  | .allow tokensNeeded created now =>
    (mtb.AllowRequestWithTokens identifier tokensNeeded created now).1
  | .inspect created now => (mtb.GetBucketState identifier created now).1

/-- The limiter after a sequence of calls on `identifier`, in program order. -/
def MemoryTokenBucket.run (mtb : MemoryTokenBucket) (identifier : String) :
    List Call → MemoryTokenBucket
  | [] => mtb
  | c :: calls => (mtb.call identifier c).run identifier calls

/-- The decisions of a sequence of `AllowRequestWithTokens(identifier, cost)` calls that
all read the clock at `t`, in program order. -/
def MemoryTokenBucket.decisions (mtb : MemoryTokenBucket) (identifier : String)
    (cost t : Int) : Nat → List Decision
  | 0 => []
  | n + 1 =>
    (mtb.AllowRequestWithTokens identifier cost t t).2 ::
      (mtb.AllowRequestWithTokens identifier cost t t).1.decisions identifier cost t n

/-- The clock readings of a call sequence are in program order: starting from the
reading `t`, no reading is earlier than the one before it. -/
def clockOrdered (t : Int) : List Call → Prop
  | [] => True
  | c :: calls => t ≤ c.created ∧ c.created ≤ c.now ∧ clockOrdered c.now calls

/-- Whether a call sequence reads the clock in program order can be computed. -/
instance clockOrdered.decide : (t : Int) → (calls : List Call) →
    Decidable (clockOrdered t calls)
  | _, [] => isTrue trivial
  | t, c :: calls =>
    haveI := clockOrdered.decide c.now calls
    inferInstanceAs (Decidable (t ≤ c.created ∧ c.created ≤ c.now ∧ clockOrdered c.now calls))

/-! ## Distributed backend (`token_bucket_redis.go`) -/

/-- The struct `RedisTokenBucket` without its client handle. -/
structure RedisTokenBucket where
  capacity : Int
  refillRate : ℚ
  tokensPerReq : Int
  keyPrefix : String

/-- The function `NewRedisTokenBucket`. -/
def NewRedisTokenBucket (capacity : Int) (refillRate : ℚ) (tokensPerReq : Int) :
    RedisTokenBucket :=
  { capacity := capacity
    refillRate := refillRate
    tokensPerReq := tokensPerReq
    keyPrefix := "rate_limit:bucket" }

/-- One field of a stored hash as `HMGET` reads it: missing, a string that is a
number, or a string that is not a number. -/
inductive HashField where
  | missing
  | number (x : ℚ)
  | text (s : String)
deriving DecidableEq

/-- The Lua function `tonumber` on a field read by `HMGET`: `nil` (here `none`) unless
the field holds a number. -/
def tonumber : HashField → Option ℚ
  | .missing => none
  | .number x => some x
  | .text _ => none

/-- The hash kept under one key: the two fields the script uses and the key's
time-to-live in seconds (`none`: no expiry set). -/
structure RedisRecord where
  tokens : HashField
  last_refill : HashField
  ttl : Option Int
deriving DecidableEq

/-- The key space of the store: `none` for a key that does not exist. -/
abbrev RedisStore := String → Option RedisRecord

/-- The command `HMGET key tokens last_refill`. -/
def HMGET (store : RedisStore) (key : String) : HashField × HashField :=
  match store key with
  | none => (.missing, .missing)
  | some record => (record.tokens, record.last_refill)

/-- The command `HMSET key tokens t last_refill l`: both fields are written, the key is
created when absent, and an existing time-to-live is kept. -/
def HMSET (store : RedisStore) (key : String) (tokens last_refill : ℚ) : RedisStore :=
  Function.update store key
    (some { tokens := .number tokens
            last_refill := .number last_refill
            ttl := (store key).bind fun record => record.ttl })

/-- The command `EXPIRE key seconds`; it has no effect on a key that does not
exist. -/
def EXPIRE (store : RedisStore) (key : String) (seconds : Int) : RedisStore :=
  match store key with
  | none => store
  | some record => Function.update store key (some { record with ttl := some seconds })

/-- The table returned by the script: `{allowed, remaining_tokens, wait_time}`. -/
structure LuaReply where
  allowed : ℚ
  remaining_tokens : ℚ
  wait_time : ℚ
deriving DecidableEq

/-- The Lua script of `RedisTokenBucket.AllowRequestWithTokens`, run on the store.
`key` is `KEYS[1]`; `capacity`, `refill_rate`, `tokens_needed` and `now` are
`tonumber(ARGV[1..4])`. -/
def luaScript (store : RedisStore) (key : String)
    (capacity refill_rate tokens_needed now : ℚ) : RedisStore × LuaReply :=
  let bucket_data := HMGET store key
  let current_tokens := (tonumber bucket_data.1).getD capacity
  let last_refill := (tonumber bucket_data.2).getD now
  let time_elapsed := now - last_refill
  let tokens_to_add := time_elapsed * refill_rate
  let current_tokens := min capacity (current_tokens + tokens_to_add)
  if current_tokens ≥ tokens_needed then
    let current_tokens := current_tokens - tokens_needed
    let store := HMSET store key current_tokens now
    let store := EXPIRE store key 300
    (store, { allowed := 1, remaining_tokens := current_tokens, wait_time := 0 })
  else
    let tokens_deficit := tokens_needed - current_tokens
    let wait_time := tokens_deficit / refill_rate
    let store := HMSET store key current_tokens now
    let store := EXPIRE store key 300
    (store, { allowed := 0, remaining_tokens := current_tokens, wait_time := wait_time })

/-- A Go `interface{}` value as the client's `Eval(...).Result()` can return it. -/
inductive GoValue where
  | nil
  | int64 (n : Int)
  | float64 (x : ℚ)
  | string (s : String)
  | bool (b : Bool)
  | slice (xs : List GoValue)

/-- The four results of `RedisTokenBucket.AllowRequestWithTokens`; `err = none` is the
nil error. -/
structure RedisDecision where
  allowed : Bool
  remainingTokens : ℚ
  waitTime : Int
  err : Option String
deriving DecidableEq

/-- How a Go call ends: it returns its results, or it panics. -/
inductive GoResult (α : Type) where
  | returned (a : α)
  | panicked
deriving DecidableEq

/-- The key built by `fmt.Sprintf("%s:%s", tb.keyPrefix, identifier)`. -/
def RedisTokenBucket.key (tb : RedisTokenBucket) (identifier : String) : String :=
  tb.keyPrefix ++ ":" ++ identifier

/-- The Go part of `RedisTokenBucket.AllowRequestWithTokens` that follows the call of
`Eval`: `result` is what `tb.redis.Client.Eval(...).Result()` returned (`.error e` for
a non-nil `err`). A failed single-value type assertion panics. -/
def RedisTokenBucket.AllowRequestWithTokens (result : Except String GoValue) :
    GoResult RedisDecision :=
  match result with
  | .error e =>
    .returned { allowed := false, remainingTokens := 0, waitTime := 0,
                err := some ("redis eval error: " ++ e) }
  | .ok (.slice [r0, r1, r2]) =>
    match r0, r1, r2 with
    | .int64 allowedInt, .float64 remainingTokens, .float64 waitTimeSeconds =>
      let waitTime := floatToInt64 (waitTimeSeconds * (Second : ℚ))
      .returned { allowed := decide (allowedInt = 1), remainingTokens := remainingTokens,
                  waitTime := waitTime, err := none }
    | _, _, _ => .panicked
  | .ok _ =>
    .returned { allowed := false, remainingTokens := 0, waitTime := 0,
                err := some "unexpected redis result format" }

/-- What the store hands back for the script's table. Redis converts every Lua number
of a script's return value to an integer reply, dropping the fraction, and the client
delivers an integer reply as `int64`. -/
def LuaReply.toGo (reply : LuaReply) : GoValue :=
  .slice [.int64 (floatToInt64 reply.allowed), .int64 (floatToInt64 reply.remaining_tokens),
    .int64 (floatToInt64 reply.wait_time)]

/-- The call `tb.redis.Client.Eval(ctx, luaScript, []string{key}, tb.capacity,
tb.refillRate, tokensNeeded, now.Unix())` on a reachable store; `now` is
`time.Now().Unix()`. -/
def RedisTokenBucket.Eval (tb : RedisTokenBucket) (store : RedisStore)
    (identifier : String) (tokensNeeded : Int) (now : Int) : RedisStore × LuaReply :=
  luaScript store (tb.key identifier) (tb.capacity : ℚ) tb.refillRate (tokensNeeded : ℚ)
    (now : ℚ)

/-- The command `DEL key`. -/
def DEL (store : RedisStore) (key : String) : RedisStore :=
  Function.update store key none

/-- The method `RedisTokenBucket.Reset` on a reachable store: the store after
`Del(ctx, key)` and the nil error. -/
def RedisTokenBucket.Reset (tb : RedisTokenBucket) (store : RedisStore)
    (identifier : String) : RedisStore × Option String :=
  (DEL store (tb.key identifier), none)

/-- The method `RedisTokenBucket.AllowRequest`: `AllowRequestWithTokens` with the
configured cost, which enters the call of `Eval` only; `result` is what `Eval`
returned. -/
def RedisTokenBucket.AllowRequest (result : Except String GoValue) :
    GoResult RedisDecision :=
  RedisTokenBucket.AllowRequestWithTokens result

/-! ## Eviction sweep of the memory backend -/

/-- One pass of the loop body of `MemoryTokenBucket.cleanup`, run when the ticker
fires; `now` is the reading of its `time.Now()`. Every bucket whose last refill lies
more than ten minutes back is deleted from the map. -/
def MemoryTokenBucket.cleanup (mtb : MemoryTokenBucket) (now : Int) : MemoryTokenBucket :=
  { mtb with
    buckets := fun identifier =>
      match mtb.buckets identifier with
      | some bucket =>
        if Time.Sub now bucket.lastRefill > 10 * Minute then none else some bucket
      | none => none }

/-! ## Request pipeline (`rate_limit_helpers.go` and the two middlewares) -/

/-- The method `Time.Add` on a wall-clock time given in nanoseconds since the Unix
epoch. -/
def Time.Add (t d : Int) : Int := t + d

/-- The method `Time.Unix`: whole seconds since the Unix epoch, rounded down (integer
division on `Int` rounds down for a positive divisor). -/
def Time.Unix (t : Int) : Int := t / Second

/-- The function `strconv.FormatInt(n, 10)`: the decimal numeral of `n`. -/
def FormatInt (n : Int) : String := toString n

/-- The function `strconv.Itoa`. -/
def Itoa (n : Int) : String := FormatInt n

/-- Rounding to the nearest integer, a tie going to the even neighbour. -/
def roundHalfEven (x : ℚ) : Int :=
  let f : Int := ⌊x⌋
  let r : ℚ := x - (f : ℚ)
  if r < 1 / 2 then f else if 1 / 2 < r then f + 1 else if f % 2 = 0 then f else f + 1

/-- Rounding of a real value to the nearest `float64`, a tie going to the even
mantissa: the value is rounded to a multiple of `2^(e-52)`, where `2^e` is the power of
two at or below its magnitude, and of `2^(-1074)` in the subnormal range. Magnitudes
beyond the largest finite `float64` are outside the model. -/
def round64 (x : ℚ) : ℚ :=
  if x = 0 then 0 else
    (roundHalfEven (x / (2 : ℚ) ^ (max (Int.log 2 |x| - 52) (-1074))) : ℚ)
      * (2 : ℚ) ^ (max (Int.log 2 |x| - 52) (-1074))

/-- The method `Duration.Seconds` as `float64` arithmetic computes it:
`float64(sec) + float64(nsec)/1e9` with every conversion and operation rounded. -/
def Duration.Seconds64 (d : Int) : ℚ :=
  let sec := Int.tdiv d Second
  let nsec := Int.tmod d Second
  round64 (round64 (sec : ℚ) + round64 (round64 (nsec : ℚ) / 1000000000))

/-- The text produced by the verb `%.2f` of `fmt.Sprintf` for a `float64` of value `x`:
sign, integer part and two decimals of the exact value of the `float64`, rounded to
nearest with ties to even. -/
def Sprintf_2f (x : ℚ) : String :=
  let n : Nat := (roundHalfEven (|x| * 100)).toNat
  (if x < 0 then "-" else "") ++ toString (n / 100) ++ "." ++ toString (n % 100 / 10)
    ++ toString (n % 10)

/-- What a handler reads from the `gin.Context`: the key/value store `Keys` and the
results of `ClientIP()` and `FullPath()`. -/
structure Context where
  Keys : String → Option GoValue
  clientIP : String
  fullPath : String

/-- The method `Context.GetString`: the value under `key` when it is a string, the
empty string otherwise. -/
def Context.GetString (c : Context) (key : String) : String :=
  match c.Keys key with
  | some (.string s) => s
  | _ => ""

/-- The function `getIdentifier`. -/
def getIdentifier (c : Context) : String :=
  let userID := c.GetString "user_id"
  if userID ≠ "" then "user:" ++ userID else "ip:" ++ c.clientIP

/-- The function `getEndpointIdentifier`. -/
def getEndpointIdentifier (c : Context) (baseIdentifier : String) : String :=
  let endpoint := c.fullPath
  baseIdentifier ++ ":" ++ endpoint

/-- The function `setRateLimitHeaders`: the four `c.Header(name, value)` calls in
order; `resetTime` is a wall-clock time. -/
def setRateLimitHeaders (limit remaining : Int) (resetTime : Int) : List (String × String) :=
  [("X-RateLimit-Limit", Itoa limit),
   ("X-RateLimit-Remaining", Itoa remaining),
   ("X-RateLimit-Reset", FormatInt (Time.Unix resetTime)),
   ("X-RateLimit-Type", "token-bucket")]

/-- The struct `models.ErrorResponse`. -/
structure ErrorResponse where
  Error : String
  Message : String
deriving DecidableEq

/-- What a middleware handler did to the `gin.Context`: the headers it set, the status
and body of its `c.JSON` call if any, whether it called `c.Abort()` and whether it
called `c.Next()` (which runs the downstream handlers). -/
structure Response where
  headers : List (String × String)
  status : Option Int
  body : Option ErrorResponse
  aborted : Bool
  next : Bool
deriving DecidableEq

/-- The constant `http.StatusTooManyRequests`. -/
def StatusTooManyRequests : Int := 429

/-- The set-up part of `MemoryTokenBucketMiddleware`: the captured `capacity` and the
limiter built by `NewMemoryTokenBucket(capacity, refillRate, 1)`. -/
def MemoryTokenBucketMiddleware (requestsPerMinute : Int) : Int × MemoryTokenBucket :=
  let refillRate : ℚ := (requestsPerMinute : ℚ) / 60
  let capacity := requestsPerMinute
  let limiter := NewMemoryTokenBucket capacity refillRate 1
  (capacity, limiter)

/-- The handler returned by `MemoryTokenBucketMiddleware`. `created` and `now` are the
clock readings of the limiter call, `wall` is the wall-clock time of the `time.Now()`
passed to `setRateLimitHeaders`. -/
def MemoryTokenBucketMiddleware.handler (capacity : Int) (limiter : MemoryTokenBucket)
    (c : Context) (created now wall : Int) : MemoryTokenBucket × Response :=
  let identifier := getIdentifier c
  let (limiter1, d) := limiter.AllowRequest identifier created now
  let headers := setRateLimitHeaders capacity (floatToInt64 d.remainingTokens)
    (Time.Add wall d.waitTime)
  if !d.allowed then
    (limiter1,
      { headers := headers
        status := some StatusTooManyRequests
        body := some
          { Error := "rate_limit_exceeded"
            Message := "Rate limit exceeded. Try again in "
              ++ Sprintf_2f (Duration.Seconds64 d.waitTime) ++ " seconds." }
        aborted := true
        next := false })
  else
    (limiter1,
      { headers := headers, status := none, body := none, aborted := false, next := true })

/-- The set-up part of `TokenBucketMiddleware`: the captured `capacity` and the limiter
built by `NewRedisTokenBucket(redis, capacity, refillRate, 1)`. -/
def TokenBucketMiddleware (requestsPerMinute : Int) : Int × RedisTokenBucket :=
  let refillRate : ℚ := (requestsPerMinute : ℚ) / 60
  let capacity := requestsPerMinute
  let bucket := NewRedisTokenBucket capacity refillRate 1
  (capacity, bucket)

/-- The handler returned by `TokenBucketMiddleware`. `result` is what `Eval` returned
inside `bucket.AllowRequest(identifier)`, `wall` the wall-clock time of the
`time.Now()` passed to `setRateLimitHeaders`. A panic of `AllowRequest` unwinds the
handler. -/
def TokenBucketMiddleware.handler (capacity : Int) (result : Except String GoValue)
    (wall : Int) : GoResult Response :=
  match RedisTokenBucket.AllowRequest result with
  | .panicked => .panicked
  | .returned d =>
    if d.err ≠ none then
      -- if Redis is down, allow the request
      .returned
        { headers := setRateLimitHeaders capacity capacity wall
          status := none, body := none, aborted := false, next := true }
    else
      let headers := setRateLimitHeaders capacity (floatToInt64 d.remainingTokens)
        (Time.Add wall d.waitTime)
      if !d.allowed then
        .returned
          { headers := headers
            status := some StatusTooManyRequests
            body := some
              { Error := "rate_limit_exceeded"
                Message := "Rate limit exceeded. Try again in "
                  ++ Sprintf_2f (Duration.Seconds64 d.waitTime) ++ " seconds." }
            aborted := true
            next := false }
      else
        .returned
          { headers := headers, status := none, body := none, aborted := false,
            next := true }

/-! ## Several callers on one key of the distributed backend -/

/-- The method `getOrCreateBucket` with `float64(mtb.capacity)` rounded. -/
def MemoryTokenBucket.getOrCreateBucket64 (mtb : MemoryTokenBucket) (identifier : String)
    (clock : Int) : MemoryTokenBucket × tokenBucket :=
  match mtb.buckets identifier with
  | some bucket => (mtb, bucket)
  | none =>
    match mtb.buckets identifier with
    | some bucket => (mtb, bucket)
    | none =>
      let bucket : tokenBucket :=
        { tokens := round64 (mtb.capacity : ℚ), lastRefill := clock }
      (mtb.store identifier bucket, bucket)

/-- The method `MemoryTokenBucket.AllowRequestWithTokens` in `float64` arithmetic. -/
def MemoryTokenBucket.AllowRequestWithTokens64 (mtb : MemoryTokenBucket)
    (identifier : String) (tokensNeeded : Int) (created now : Int) :
    MemoryTokenBucket × Decision :=
  let (mtb1, bucket) := mtb.getOrCreateBucket64 identifier created
  let timeElapsed := Duration.Seconds64 (Time.Sub now bucket.lastRefill)
  let tokensToAdd := round64 (timeElapsed * mtb.refillRate)
  let tokens := min (round64 (mtb.capacity : ℚ)) (round64 (bucket.tokens + tokensToAdd))
  if tokens ≥ round64 (tokensNeeded : ℚ) then
    let tokens1 := round64 (tokens - round64 (tokensNeeded : ℚ))
    (mtb1.store identifier { tokens := tokens1, lastRefill := now },
      { allowed := true, remainingTokens := tokens1, waitTime := 0 })
  else
    let deficit := round64 (round64 (tokensNeeded : ℚ) - tokens)
    let waitTime := wrapInt64 (floatToInt64 (round64 (deficit / mtb.refillRate)) * Second)
    (mtb1.store identifier { tokens := tokens, lastRefill := now },
      { allowed := false, remainingTokens := tokens, waitTime := waitTime })

/-- The method `MemoryTokenBucket.GetBucketState` in `float64` arithmetic. -/
def MemoryTokenBucket.GetBucketState64 (mtb : MemoryTokenBucket) (identifier : String)
    (created now : Int) : MemoryTokenBucket × ℚ × Int :=
  let (mtb1, bucket) := mtb.getOrCreateBucket64 identifier created
  let timeElapsed := Duration.Seconds64 (Time.Sub now bucket.lastRefill)
  let tokensToAdd := round64 (timeElapsed * mtb.refillRate)
  let tokens := min (round64 (mtb.capacity : ℚ)) (round64 (bucket.tokens + tokensToAdd))
  (mtb1.store identifier { tokens := tokens, lastRefill := now }, tokens, now)

/-! ## Auxiliary facts about the runtime pieces -/

/-- In exact arithmetic `Duration.Seconds` divides the nanoseconds by `10^9`. -/
theorem Duration.Seconds_eq (d : Int) : Duration.Seconds d = (d : ℚ) / 1000000000 := by
  have h := Int.tdiv_add_tmod d Second
  have hq : ((Second : Int) : ℚ) * ((Int.tdiv d Second : Int) : ℚ)
      + ((Int.tmod d Second : Int) : ℚ) = (d : ℚ) := by exact_mod_cast h
  have hs : ((Second : Int) : ℚ) = 1000000000 := by norm_num [Second]
  rw [hs] at hq
  simp only [Duration.Seconds]
  rw [← hq]
  field_simp
  ring

/-- On an identifier that has a bucket, `getOrCreateBucket` returns it and changes
nothing. -/
theorem MemoryTokenBucket.getOrCreateBucket_of_some (mtb : MemoryTokenBucket)
    (identifier : String) (clock : Int) (bucket : tokenBucket)
    (h : mtb.buckets identifier = some bucket) :
    mtb.getOrCreateBucket identifier clock = (mtb, bucket) := by
  simp [MemoryTokenBucket.getOrCreateBucket, h]

/-- On an identifier without a bucket, `getOrCreateBucket` stores a full bucket stamped
with the clock reading. -/
theorem MemoryTokenBucket.getOrCreateBucket_of_none (mtb : MemoryTokenBucket)
    (identifier : String) (clock : Int) (h : mtb.buckets identifier = none) :
    mtb.getOrCreateBucket identifier clock
      = (mtb.store identifier { tokens := (mtb.capacity : ℚ), lastRefill := clock },
          { tokens := (mtb.capacity : ℚ), lastRefill := clock }) := by
  simp [MemoryTokenBucket.getOrCreateBucket, h]

/-- Reading back the entry just written. -/
theorem MemoryTokenBucket.store_buckets_same (mtb : MemoryTokenBucket)
    (identifier : String) (bucket : tokenBucket) :
    (mtb.store identifier bucket).buckets identifier = some bucket := by
  simp [MemoryTokenBucket.store]

/-! ## The refill-and-consume step of the memory backend -/

/-- C2 (evaluation at the failing input). With capacity 60 and one token per second, a
drained bucket touched half a second after its last refill holds 0.5 tokens; a call of
cost 1 is denied with `remaining = 0.5` and keeps 0.5 tokens, but the returned
`waitTime` is 0 nanoseconds, not the `(1 - 0.5) / 1` seconds (500000000 ns) of the
wait-time formula: `time.Duration(deficit/refillRate)` drops the fraction of a second
before the multiplication by `time.Second`. -/
theorem memory_denied_waitTime_drops_fraction :
    (((NewMemoryTokenBucket 60 1 1).store "ip:10.0.0.1"
        (tokenBucket.mk 0 0)).AllowRequestWithTokens "ip:10.0.0.1" 1 0 500000000).2
      = Decision.mk false (1 / 2) 0 ∧
    (((NewMemoryTokenBucket 60 1 1).store "ip:10.0.0.1"
        (tokenBucket.mk 0 0)).AllowRequestWithTokens "ip:10.0.0.1" 1 0
          500000000).1.buckets "ip:10.0.0.1"
      = some (tokenBucket.mk (1 / 2) 500000000) ∧
    (((((NewMemoryTokenBucket 60 1 1).store "ip:10.0.0.1"
        (tokenBucket.mk 0 0)).AllowRequestWithTokens "ip:10.0.0.1" 1 0
          500000000).2.waitTime : Int) : ℚ)
      ≠ ((1 : ℚ) - 1 / 2) / 1 * 1000000000 := by
  norm_num [MemoryTokenBucket.AllowRequestWithTokens, MemoryTokenBucket.getOrCreateBucket,
    MemoryTokenBucket.store, NewMemoryTokenBucket, Duration.Seconds_eq, Time.Sub,
    wrapInt64, floatToInt64, Second]

/-! ## Token bounds along call sequences of the memory backend -/

/-- The bucket `getOrCreateBucket` hands out is the one its map then holds. -/
theorem MemoryTokenBucket.getOrCreateBucket_spec (mtb : MemoryTokenBucket)
    (identifier : String) (clock : Int) :
    (mtb.getOrCreateBucket identifier clock).1.capacity = mtb.capacity ∧
    (mtb.getOrCreateBucket identifier clock).1.refillRate = mtb.refillRate ∧
    ((mtb.buckets identifier = some (mtb.getOrCreateBucket identifier clock).2) ∨
     (mtb.buckets identifier = none ∧
      (mtb.getOrCreateBucket identifier clock).2
        = tokenBucket.mk (mtb.capacity : ℚ) clock)) := by
  cases h : mtb.buckets identifier with
  | none =>
    rw [MemoryTokenBucket.getOrCreateBucket_of_none mtb identifier clock h]
    exact ⟨rfl, rfl, Or.inr ⟨rfl, rfl⟩⟩
  | some b =>
    rw [MemoryTokenBucket.getOrCreateBucket_of_some mtb identifier clock b h]
    exact ⟨rfl, rfl, Or.inl rfl⟩

/-- The limiter left by `AllowRequestWithTokens`: the configuration is kept and the
bucket of the identifier holds the refilled tokens, less the cost when it was paid,
stamped with `now`. -/
theorem MemoryTokenBucket.AllowRequestWithTokens_state (mtb : MemoryTokenBucket)
    (identifier : String) (tokensNeeded created now : Int) :
    (mtb.AllowRequestWithTokens identifier tokensNeeded created now).1.capacity
      = mtb.capacity ∧
    (mtb.AllowRequestWithTokens identifier tokensNeeded created now).1.refillRate
      = mtb.refillRate ∧
    (mtb.AllowRequestWithTokens identifier tokensNeeded created now).1.buckets identifier
      = some (tokenBucket.mk
          (if min (mtb.capacity : ℚ)
                ((mtb.getOrCreateBucket identifier created).2.tokens
                  + ((now - (mtb.getOrCreateBucket identifier created).2.lastRefill : Int) : ℚ)
                    / 1000000000 * mtb.refillRate) ≥ (tokensNeeded : ℚ)
           then min (mtb.capacity : ℚ)
                ((mtb.getOrCreateBucket identifier created).2.tokens
                  + ((now - (mtb.getOrCreateBucket identifier created).2.lastRefill : Int) : ℚ)
                    / 1000000000 * mtb.refillRate) - (tokensNeeded : ℚ)
           else min (mtb.capacity : ℚ)
                ((mtb.getOrCreateBucket identifier created).2.tokens
                  + ((now - (mtb.getOrCreateBucket identifier created).2.lastRefill : Int) : ℚ)
                    / 1000000000 * mtb.refillRate))
          now) := by
  obtain ⟨hc, hr, _⟩ := mtb.getOrCreateBucket_spec identifier created
  simp only [MemoryTokenBucket.AllowRequestWithTokens, Duration.Seconds_eq, Time.Sub]
  split_ifs with h
  · exact ⟨hc, hr, MemoryTokenBucket.store_buckets_same _ _ _⟩
  · exact ⟨hc, hr, MemoryTokenBucket.store_buckets_same _ _ _⟩

/-- The limiter left by `GetBucketState`: the configuration is kept and the bucket of
the identifier holds the refilled tokens, stamped with `now`. -/
theorem MemoryTokenBucket.GetBucketState_state (mtb : MemoryTokenBucket)
    (identifier : String) (created now : Int) :
    (mtb.GetBucketState identifier created now).1.capacity = mtb.capacity ∧
    (mtb.GetBucketState identifier created now).1.refillRate = mtb.refillRate ∧
    (mtb.GetBucketState identifier created now).1.buckets identifier
      = some (tokenBucket.mk
          (min (mtb.capacity : ℚ)
                ((mtb.getOrCreateBucket identifier created).2.tokens
                  + ((now - (mtb.getOrCreateBucket identifier created).2.lastRefill : Int) : ℚ)
                    / 1000000000 * mtb.refillRate))
          now) := by
  obtain ⟨hc, hr, _⟩ := mtb.getOrCreateBucket_spec identifier created
  simp only [MemoryTokenBucket.GetBucketState, Duration.Seconds_eq, Time.Sub]
  exact ⟨hc, hr, MemoryTokenBucket.store_buckets_same _ _ _⟩

/-- Refilling a bucket that is within bounds, over a non-negative elapsed time and at a
non-negative rate, keeps it within bounds. -/
theorem refill_within_bounds (capacity : Int) (refillRate tokens : ℚ) (lastRefill now : Int)
    (hcap : 0 ≤ capacity) (hrate : 0 ≤ refillRate) (h0 : 0 ≤ tokens)
    (hnow : lastRefill ≤ now) :
    0 ≤ min (capacity : ℚ) (tokens + ((now - lastRefill : Int) : ℚ) / 1000000000 * refillRate)
    ∧ min (capacity : ℚ) (tokens + ((now - lastRefill : Int) : ℚ) / 1000000000 * refillRate)
      ≤ (capacity : ℚ) := by
  have he : (0 : ℚ) ≤ ((now - lastRefill : Int) : ℚ) := by
    exact_mod_cast sub_nonneg.mpr hnow
  have hadd : (0 : ℚ) ≤ ((now - lastRefill : Int) : ℚ) / 1000000000 * refillRate := by
    positivity
  have hc : (0 : ℚ) ≤ (capacity : ℚ) := by exact_mod_cast hcap
  exact ⟨le_min hc (by linarith), min_le_left _ _⟩

/-- One call with a non-negative cost, made no earlier than the bucket's last refill,
on a limiter with non-negative capacity and rate keeps the configuration and leaves a
bucket within bounds, stamped with the call's `now`. -/
theorem MemoryTokenBucket.call_within_bounds (mtb : MemoryTokenBucket)
    (identifier : String) (c : Call) (t : Int)
    (hcap : 0 ≤ mtb.capacity) (hrate : 0 ≤ mtb.refillRate) (hcost : 0 ≤ c.cost)
    (h1 : t ≤ c.created) (h2 : c.created ≤ c.now)
    (hinv : ∀ b, mtb.buckets identifier = some b →
      0 ≤ b.tokens ∧ b.tokens ≤ (mtb.capacity : ℚ) ∧ b.lastRefill ≤ t) :
    (mtb.call identifier c).capacity = mtb.capacity ∧
    (mtb.call identifier c).refillRate = mtb.refillRate ∧
    ∃ b, (mtb.call identifier c).buckets identifier = some b ∧
      0 ≤ b.tokens ∧ b.tokens ≤ (mtb.capacity : ℚ) ∧ b.lastRefill ≤ c.now := by
  -- the bucket handed out by `getOrCreateBucket` is within bounds and not from the future
  have hg : 0 ≤ (mtb.getOrCreateBucket identifier c.created).2.tokens ∧
      (mtb.getOrCreateBucket identifier c.created).2.tokens ≤ (mtb.capacity : ℚ) ∧
      (mtb.getOrCreateBucket identifier c.created).2.lastRefill ≤ c.now := by
    obtain ⟨_, _, hb | ⟨_, hb⟩⟩ := mtb.getOrCreateBucket_spec identifier c.created
    · obtain ⟨a1, a2, a3⟩ := hinv _ hb
      exact ⟨a1, a2, by omega⟩
    · rw [hb]
      have hc : (0 : ℚ) ≤ (mtb.capacity : ℚ) := by exact_mod_cast hcap
      exact ⟨hc, le_refl _, h2⟩
  obtain ⟨g0, _, g2⟩ := hg
  obtain ⟨r0, r1⟩ := refill_within_bounds mtb.capacity mtb.refillRate _ _ _ hcap hrate g0 g2
  cases c with
  | allow tokensNeeded created now =>
    obtain ⟨sc, sr, sb⟩ := mtb.AllowRequestWithTokens_state identifier tokensNeeded created now
    have hcost1 : (0 : ℚ) ≤ (tokensNeeded : ℚ) := by exact_mod_cast hcost
    refine ⟨sc, sr, _, sb, ?_, ?_, le_refl _⟩
    · simp only [Call.created, Call.now] at r0 r1 ⊢
      split_ifs with h
      · linarith
      · exact r0
    · simp only [Call.created, Call.now] at r0 r1 ⊢
      split_ifs with h
      · linarith
      · exact r1
  | inspect created now =>
    obtain ⟨sc, sr, sb⟩ := mtb.GetBucketState_state identifier created now
    exact ⟨sc, sr, _, sb, r0, r1, le_refl _⟩

/-- Bounds are kept along a whole call sequence. -/
theorem MemoryTokenBucket.run_within_bounds (identifier : String) (calls : List Call) :
    ∀ (mtb : MemoryTokenBucket) (t : Int),
      0 ≤ mtb.capacity → 0 ≤ mtb.refillRate →
      (∀ c ∈ calls, 0 ≤ c.cost) → clockOrdered t calls →
      (∃ b, mtb.buckets identifier = some b ∧
        0 ≤ b.tokens ∧ b.tokens ≤ (mtb.capacity : ℚ) ∧ b.lastRefill ≤ t) →
      ∃ b, (mtb.run identifier calls).buckets identifier = some b ∧
        0 ≤ b.tokens ∧ b.tokens ≤ (mtb.capacity : ℚ) := by
  induction calls with
  | nil =>
    intro mtb t _ _ _ _ hinv
    obtain ⟨b, hb, h0, h1, _⟩ := hinv
    exact ⟨b, hb, h0, h1⟩
  | cons c calls ih =>
    intro mtb t hcap hrate hcost hclock hinv
    obtain ⟨b, hb, h0, h1, h2⟩ := hinv
    obtain ⟨k1, k2, k3⟩ := hclock
    have hstep := mtb.call_within_bounds identifier c t hcap hrate
      (hcost c (List.mem_cons_self _ _)) k1 k2
      (fun b1 hb1 => by
        rw [hb] at hb1
        cases hb1
        exact ⟨h0, h1, h2⟩)
    obtain ⟨sc, sr, b2, hb2, q0, q1, q2⟩ := hstep
    have := ih (mtb.call identifier c) c.now (by rw [sc]; exact hcap) (by rw [sr]; exact hrate)
      (fun c1 hc1 => hcost c1 (List.mem_cons_of_mem _ hc1)) k3
      ⟨b2, hb2, q0, by rw [sc]; exact q1, q2⟩
    rw [sc] at this
    exact this

/-- C3 (counterexamples). The bounds fail on the code as soon as a cost, the capacity
or the refill rate is negative. With capacity 5 a single call of cost -3 leaves 8
tokens, above the capacity; with capacity -1 the first call of cost 1 leaves the new
bucket at -1 tokens; with refill rate -1 a drained bucket inspected one second later
holds -1 tokens. -/
theorem memory_bounds_counterexample :
    ((NewMemoryTokenBucket 5 1 1).run "ip:10.0.0.1" [Call.allow (-3) 0 0]).buckets
        "ip:10.0.0.1" = some (tokenBucket.mk 8 0) ∧
    ¬ ((8 : ℚ) ≤ ((5 : Int) : ℚ)) ∧
    ((NewMemoryTokenBucket (-1) 1 1).run "ip:10.0.0.1" [Call.allow 1 0 0]).buckets
        "ip:10.0.0.1" = some (tokenBucket.mk (-1) 0) ∧
    ((NewMemoryTokenBucket 1 (-1) 1).run "ip:10.0.0.1"
        [Call.allow 1 0 0, Call.inspect 1000000000 1000000000]).buckets
        "ip:10.0.0.1" = some (tokenBucket.mk (-1) 1000000000) ∧
    ¬ ((0 : ℚ) ≤ -1) := by
  norm_num [MemoryTokenBucket.run, MemoryTokenBucket.call,
    MemoryTokenBucket.AllowRequestWithTokens, MemoryTokenBucket.GetBucketState,
    MemoryTokenBucket.getOrCreateBucket, MemoryTokenBucket.store, NewMemoryTokenBucket,
    Duration.Seconds_eq, Time.Sub, wrapInt64, floatToInt64, Second]

/-- Bounds hold after a non-empty call sequence on a new limiter. -/
theorem MemoryTokenBucket.run_new_within_bounds (capacity : Int) (refillRate : ℚ)
    (tokensPerReq : Int) (identifier : String) (calls : List Call) (t : Int)
    (hcap : 0 ≤ capacity) (hrate : 0 ≤ refillRate) (hne : calls ≠ [])
    (hcost : ∀ c ∈ calls, 0 ≤ c.cost) (hclock : clockOrdered t calls) :
    ∃ b, ((NewMemoryTokenBucket capacity refillRate tokensPerReq).run identifier
        calls).buckets identifier = some b ∧
      0 ≤ b.tokens ∧ b.tokens ≤ (capacity : ℚ) := by
  cases calls with
  | nil => exact absurd rfl hne
  | cons c calls =>
    obtain ⟨k1, k2, k3⟩ := hclock
    obtain ⟨sc, sr, b, hb, q0, q1, q2⟩ :=
      (NewMemoryTokenBucket capacity refillRate tokensPerReq).call_within_bounds
        identifier c t hcap hrate (hcost c (List.mem_cons_self _ _)) k1 k2
        (fun b1 hb1 => by simp [NewMemoryTokenBucket] at hb1)
    have := MemoryTokenBucket.run_within_bounds identifier calls
      ((NewMemoryTokenBucket capacity refillRate tokensPerReq).call identifier c) c.now
      (by rw [sc]; exact hcap) (by rw [sr]; exact hrate)
      (fun c1 hc1 => hcost c1 (List.mem_cons_of_mem _ hc1)) k3
      ⟨b, hb, q0, by rw [sc]; exact q1, q2⟩
    rw [sc] at this
    exact this

/-- A prefix of a call sequence in program order is in program order. -/
theorem clockOrdered_take (calls : List Call) :
    ∀ (t : Int) (n : Nat), clockOrdered t calls → clockOrdered t (calls.take n) := by
  induction calls with
  | nil =>
    intro t n h
    simpa using h
  | cons c calls ih =>
    intro t n h
    cases n with
    | zero => trivial
    | succ n =>
      obtain ⟨k1, k2, k3⟩ := h
      exact ⟨k1, k2, ih c.now n k3⟩

/-- C3 (amended). Memory backend invariant: on a limiter with `capacity >= 0` and
`refillRate >= 0`, starting from a lazily created bucket, after every call (the `n`-th,
for every `n >= 1`) of every finite sequence of `AllowRequestWithTokens` and
`GetBucketState` calls on that identifier whose costs are non-negative and whose clock
readings are in program order, the bucket exists and its tokens satisfy
`0 <= tokens <= capacity`. -/
theorem memory_bounds_nonneg_costs (capacity : Int) (refillRate : ℚ) (tokensPerReq : Int)
    (identifier : String) (calls : List Call) (t : Int) (n : Nat)
    (hcap : 0 ≤ capacity) (hrate : 0 ≤ refillRate)
    (hn : 1 ≤ n) (hlen : n ≤ calls.length)
    (hcost : ∀ c ∈ calls, 0 ≤ c.cost) (hclock : clockOrdered t calls) :
    ∃ b, ((NewMemoryTokenBucket capacity refillRate tokensPerReq).run identifier
        (calls.take n)).buckets identifier = some b ∧
      0 ≤ b.tokens ∧ b.tokens ≤ (capacity : ℚ) := by
  have hne : calls.take n ≠ [] := by
    intro h
    have hl : (calls.take n).length = n := List.length_take_of_le hlen
    rw [h] at hl
    simp at hl
    omega
  exact MemoryTokenBucket.run_new_within_bounds capacity refillRate tokensPerReq identifier
    (calls.take n) t hcap hrate hne
    (fun c hc => hcost c (List.mem_of_mem_take hc)) (clockOrdered_take calls t n hclock)

/-- Witness of C3 (amended): capacity 2 at one token per second; two calls of cost 1 at
time 0, an inspection one second later and a call of cost 2 at two seconds; the state
after the third call. -/
theorem memory_bounds_nonneg_costs_witness :
    ∃ b, ((NewMemoryTokenBucket 2 1 1).run "ip:10.0.0.1"
        ([Call.allow 1 0 0, Call.allow 1 0 0, Call.inspect 1000000000 1000000000,
          Call.allow 2 2000000000 2000000000].take 3)).buckets "ip:10.0.0.1" = some b ∧
      0 ≤ b.tokens ∧ b.tokens ≤ ((2 : Int) : ℚ) :=
  memory_bounds_nonneg_costs 2 1 1 "ip:10.0.0.1"
    [Call.allow 1 0 0, Call.allow 1 0 0, Call.inspect 1000000000 1000000000,
      Call.allow 2 2000000000 2000000000] 0 3
    (by decide) (by norm_num) (by decide) (by decide)
    (by simp [Call.cost])
    (by decide)

/-! ## Closed forms of one step of each backend -/

/-- The decision of `AllowRequestWithTokens` on an identifier that has a bucket. -/
theorem MemoryTokenBucket.AllowRequestWithTokens_decision (mtb : MemoryTokenBucket)
    (identifier : String) (tokensNeeded created now : Int) (tokens : ℚ) (lastRefill : Int)
    (hb : mtb.buckets identifier = some (tokenBucket.mk tokens lastRefill)) :
    (mtb.AllowRequestWithTokens identifier tokensNeeded created now).2
      = if min (mtb.capacity : ℚ)
            (tokens + ((now - lastRefill : Int) : ℚ) / 1000000000 * mtb.refillRate)
            ≥ (tokensNeeded : ℚ)
        then Decision.mk true
          (min (mtb.capacity : ℚ)
            (tokens + ((now - lastRefill : Int) : ℚ) / 1000000000 * mtb.refillRate)
            - (tokensNeeded : ℚ)) 0
        else Decision.mk false
          (min (mtb.capacity : ℚ)
            (tokens + ((now - lastRefill : Int) : ℚ) / 1000000000 * mtb.refillRate))
          (wrapInt64 (floatToInt64 (((tokensNeeded : ℚ) - min (mtb.capacity : ℚ)
            (tokens + ((now - lastRefill : Int) : ℚ) / 1000000000 * mtb.refillRate))
              / mtb.refillRate) * Second)) := by
  simp only [MemoryTokenBucket.AllowRequestWithTokens,
    MemoryTokenBucket.getOrCreateBucket_of_some mtb identifier created _ hb,
    Duration.Seconds_eq, Time.Sub]
  split_ifs <;> rfl

/-- The record left under a key by `HMSET` followed by `EXPIRE 300`. -/
theorem EXPIRE_HMSET_same (store : RedisStore) (key : String) (tokens last_refill : ℚ) :
    EXPIRE (HMSET store key tokens last_refill) key 300 key
      = some (RedisRecord.mk (.number tokens) (.number last_refill) (some 300)) := by
  simp [EXPIRE, HMSET]

/-- The script's reply and the record it leaves, on a key whose two fields are read as
the numbers `tokens` and `last_refill`. -/
theorem luaScript_of_numbers (store : RedisStore) (key : String)
    (capacity refill_rate tokens_needed now tokens last_refill : ℚ)
    (hg : HMGET store key = (HashField.number tokens, HashField.number last_refill)) :
    (luaScript store key capacity refill_rate tokens_needed now).2
      = (if min capacity (tokens + (now - last_refill) * refill_rate) ≥ tokens_needed
         then LuaReply.mk 1
           (min capacity (tokens + (now - last_refill) * refill_rate) - tokens_needed) 0
         else LuaReply.mk 0 (min capacity (tokens + (now - last_refill) * refill_rate))
           ((tokens_needed - min capacity (tokens + (now - last_refill) * refill_rate))
             / refill_rate)) ∧
    (luaScript store key capacity refill_rate tokens_needed now).1 key
      = some (RedisRecord.mk
          (.number
            (if min capacity (tokens + (now - last_refill) * refill_rate) ≥ tokens_needed
             then min capacity (tokens + (now - last_refill) * refill_rate) - tokens_needed
             else min capacity (tokens + (now - last_refill) * refill_rate)))
          (.number now) (some 300)) := by
  simp only [luaScript, hg, tonumber, Option.getD_some]
  split_ifs
  · exact ⟨rfl, EXPIRE_HMSET_same _ _ _ _⟩
  · exact ⟨rfl, EXPIRE_HMSET_same _ _ _ _⟩

/-! ## Negative elapsed time -/

/-- C4 (counterexample). Distributed backend, capacity 10, one token per second, a
record holding 5 tokens with `last_refill = 100`: a call of cost 1 stamped `now = 98`
(a caller whose clock is two seconds behind) refills to `min(10, 5 + (98 - 100) * 1)
= 3`, not to `min(10, 5) = 5`: it answers `remaining = 2` and stores 2 tokens, where a
clamped elapsed time would leave 4. -/
theorem redis_negative_elapsed_not_clamped :
    (luaScript (Function.update (fun _ => none) "rate_limit:bucket:ip:10.0.0.1"
        (some (RedisRecord.mk (.number 5) (.number 100) (some 300))))
      "rate_limit:bucket:ip:10.0.0.1" 10 1 1 98).2 = LuaReply.mk 1 2 0 ∧
    (luaScript (Function.update (fun _ => none) "rate_limit:bucket:ip:10.0.0.1"
        (some (RedisRecord.mk (.number 5) (.number 100) (some 300))))
      "rate_limit:bucket:ip:10.0.0.1" 10 1 1 98).1 "rate_limit:bucket:ip:10.0.0.1"
      = some (RedisRecord.mk (.number 2) (.number 98) (some 300)) ∧
    (2 : ℚ) ≠ min 10 5 - 1 := by
  norm_num [luaScript, HMGET, HMSET, EXPIRE, tonumber]

/-- C4 (amended). In the refill step of both backends the elapsed time is used as it
is, also when it is negative: for every stored state with `now < lastRefill` the
refilled token count is `min(capacity, stored tokens + (now - lastRefill) * refillRate)`
(the memory backend measures the difference in seconds), which for `refillRate >= 0` is
at most `min(capacity, stored tokens)`. The refilled count is read off the decision:
`remaining` is the refilled count on a denial and the refilled count less the cost on
an allowed call. -/
theorem negative_elapsed_refill (mtb : MemoryTokenBucket) (identifier : String)
    (cost created now : Int) (tokens : ℚ) (lastRefill : Int)
    (store : RedisStore) (key : String)
    (capacity refill_rate tokens_needed now1 tokens1 last_refill : ℚ)
    (hb : mtb.buckets identifier = some (tokenBucket.mk tokens lastRefill))
    (hnow : now < lastRefill) (hrate : 0 ≤ mtb.refillRate)
    (hg : HMGET store key = (HashField.number tokens1, HashField.number last_refill))
    (hnow1 : now1 < last_refill) (hrate1 : 0 ≤ refill_rate) :
    ((mtb.AllowRequestWithTokens identifier cost created now).2.remainingTokens
      = (if min (mtb.capacity : ℚ)
            (tokens + ((now - lastRefill : Int) : ℚ) / 1000000000 * mtb.refillRate)
            ≥ (cost : ℚ)
         then min (mtb.capacity : ℚ)
            (tokens + ((now - lastRefill : Int) : ℚ) / 1000000000 * mtb.refillRate)
            - (cost : ℚ)
         else min (mtb.capacity : ℚ)
            (tokens + ((now - lastRefill : Int) : ℚ) / 1000000000 * mtb.refillRate)) ∧
     min (mtb.capacity : ℚ)
        (tokens + ((now - lastRefill : Int) : ℚ) / 1000000000 * mtb.refillRate)
      ≤ min (mtb.capacity : ℚ) tokens) ∧
    ((luaScript store key capacity refill_rate tokens_needed now1).2.remaining_tokens
      = (if min capacity (tokens1 + (now1 - last_refill) * refill_rate) ≥ tokens_needed
         then min capacity (tokens1 + (now1 - last_refill) * refill_rate) - tokens_needed
         else min capacity (tokens1 + (now1 - last_refill) * refill_rate)) ∧
     min capacity (tokens1 + (now1 - last_refill) * refill_rate)
      ≤ min capacity tokens1) := by
  refine ⟨⟨?_, ?_⟩, ⟨?_, ?_⟩⟩
  · rw [mtb.AllowRequestWithTokens_decision identifier cost created now tokens lastRefill hb]
    split_ifs <;> rfl
  · apply min_le_min_left
    have he : ((now - lastRefill : Int) : ℚ) ≤ 0 := by
      have : now - lastRefill ≤ 0 := by omega
      exact_mod_cast this
    have : ((now - lastRefill : Int) : ℚ) / 1000000000 * mtb.refillRate ≤ 0 :=
      mul_nonpos_of_nonpos_of_nonneg (div_nonpos_of_nonpos_of_nonneg he (by norm_num)) hrate
    linarith
  · rw [(luaScript_of_numbers store key capacity refill_rate tokens_needed now1 tokens1
      last_refill hg).1]
    split_ifs <;> rfl
  · apply min_le_min_left
    have : (now1 - last_refill) * refill_rate ≤ 0 :=
      mul_nonpos_of_nonpos_of_nonneg (by linarith) hrate1
    linarith

/-- Witness of C4 (amended): both backends at capacity 10 and one token per second, a
state of 5 tokens read two seconds before its last refill, cost 1. -/
theorem negative_elapsed_refill_witness :
    ((((NewMemoryTokenBucket 10 1 1).store "ip:10.0.0.1"
        (tokenBucket.mk 5 2000000000)).AllowRequestWithTokens "ip:10.0.0.1" 1 0
          0).2.remainingTokens = 2 ∧
      (3 : ℚ) ≤ 5) ∧
    ((luaScript (Function.update (fun _ => none) "rate_limit:bucket:ip:10.0.0.1"
        (some (RedisRecord.mk (.number 5) (.number 100) (some 300))))
      "rate_limit:bucket:ip:10.0.0.1" 10 1 1 98).2.remaining_tokens = 2 ∧
      (3 : ℚ) ≤ 5) := by
  have h := negative_elapsed_refill
    ((NewMemoryTokenBucket 10 1 1).store "ip:10.0.0.1" (tokenBucket.mk 5 2000000000))
    "ip:10.0.0.1" 1 0 0 5 2000000000
    (Function.update (fun _ => none) "rate_limit:bucket:ip:10.0.0.1"
      (some (RedisRecord.mk (.number 5) (.number 100) (some 300))))
    "rate_limit:bucket:ip:10.0.0.1" 10 1 1 98 5 100
    (by simp [MemoryTokenBucket.store]) (by norm_num)
    (by norm_num [MemoryTokenBucket.store, NewMemoryTokenBucket])
    (by simp [HMGET]) (by norm_num) (by norm_num)
  norm_num [MemoryTokenBucket.store, NewMemoryTokenBucket] at h
  norm_num
  exact h

/-! ## Exhaustion and first call -/

/-- Draining an existing bucket that holds `m` whole tokens with calls of cost 1 at the
instant of its last refill: exactly the first `m` calls are allowed, and call `m + 1`
is denied with the wait `time.Duration(1/refillRate) * time.Second`. -/
theorem MemoryTokenBucket.decisions_drain (identifier : String) (t : Int) (m : Nat) :
    ∀ mtb : MemoryTokenBucket,
      mtb.buckets identifier = some (tokenBucket.mk (m : ℚ) t) →
      (m : ℚ) ≤ (mtb.capacity : ℚ) →
      (mtb.decisions identifier 1 t (m + 1)).map Decision.allowed
        = List.replicate m true ++ [false] ∧
      (mtb.decisions identifier 1 t (m + 1)).getLast?
        = some (Decision.mk false 0
            (wrapInt64 (floatToInt64 (1 / mtb.refillRate) * Second))) := by
  induction m with
  | zero =>
    intro mtb hb hcap
    have hd := mtb.AllowRequestWithTokens_decision identifier 1 t t _ _ hb
    simp only [Nat.cast_zero, sub_self, Int.cast_zero, zero_div, zero_mul, add_zero,
      Int.cast_one] at hd hcap
    rw [min_eq_right hcap, if_neg (by norm_num)] at hd
    simp [MemoryTokenBucket.decisions, hd]
  | succ m ih =>
    intro mtb hb hcap
    have hd := mtb.AllowRequestWithTokens_decision identifier 1 t t _ _ hb
    obtain ⟨sc, sr, sb⟩ := mtb.AllowRequestWithTokens_state identifier 1 t t
    rw [MemoryTokenBucket.getOrCreateBucket_of_some mtb identifier t _ hb] at sb
    simp only [sub_self, Int.cast_zero, zero_div, zero_mul, add_zero, Int.cast_one]
      at hd sb
    have h1 : (1 : ℚ) ≤ ((m + 1 : Nat) : ℚ) := by
      push_cast
      linarith [(Nat.cast_nonneg m : (0 : ℚ) ≤ (m : ℚ))]
    rw [min_eq_right hcap, if_pos h1] at hd sb
    have hm : ((m + 1 : Nat) : ℚ) - 1 = (m : ℚ) := by push_cast; ring
    rw [hm] at sb
    have hcap1 : (m : ℚ) ≤
        ((mtb.AllowRequestWithTokens identifier 1 t t).1.capacity : ℚ) := by
      rw [sc]
      have : (m : ℚ) ≤ ((m + 1 : Nat) : ℚ) := by push_cast; linarith
      linarith
    obtain ⟨i1, i2⟩ := ih _ sb hcap1
    rw [sr] at i2
    constructor
    · rw [MemoryTokenBucket.decisions, List.map_cons, i1, hd]
      rfl
    · rw [MemoryTokenBucket.decisions, List.getLast?_cons, i2]
      rfl

/-- Exhaustion of a new bucket (memory backend): for every capacity `c >= 1`, issuing
`c + 1` calls of cost 1 to an identifier without a bucket, all at the instant of
creation, allows exactly the first `c` calls and denies call `c + 1`; the denial
carries the wait `time.Duration(1/refillRate) * time.Second`, a whole number of
seconds. -/
theorem MemoryTokenBucket.decisions_exhaust_new (mtb : MemoryTokenBucket) (c : Nat)
    (identifier : String) (t : Int) (hc : 1 ≤ c) (hcap : mtb.capacity = (c : Int))
    (hnone : mtb.buckets identifier = none) :
    (mtb.decisions identifier 1 t (c + 1)).map Decision.allowed
      = List.replicate c true ++ [false] ∧
    (mtb.decisions identifier 1 t (c + 1)).getLast?
      = some (Decision.mk false 0
          (wrapInt64 (floatToInt64 (1 / mtb.refillRate) * Second))) := by
  obtain ⟨k, rfl⟩ : ∃ k, c = k + 1 := ⟨c - 1, by omega⟩
  obtain ⟨sc, sr, sb⟩ := mtb.AllowRequestWithTokens_state identifier 1 t t
  have hq : (mtb.capacity : ℚ) = (k : ℚ) + 1 := by
    rw [hcap]
    push_cast
    ring
  have h1 : (1 : ℚ) ≤ (k : ℚ) + 1 := by
    linarith [(Nat.cast_nonneg k : (0 : ℚ) ≤ (k : ℚ))]
  have hall : (mtb.AllowRequestWithTokens identifier 1 t t).2.allowed = true := by
    simp only [MemoryTokenBucket.AllowRequestWithTokens,
      MemoryTokenBucket.getOrCreateBucket_of_none _ identifier t hnone,
      Duration.Seconds_eq, Time.Sub, sub_self, Int.cast_zero, zero_div, zero_mul,
      add_zero, Int.cast_one, min_self, hq]
    rw [if_pos h1]
  rw [MemoryTokenBucket.getOrCreateBucket_of_none _ identifier t hnone] at sb
  simp only [sub_self, Int.cast_zero, zero_div, zero_mul, add_zero, Int.cast_one,
    min_self, hq] at sb
  rw [if_pos h1, add_sub_cancel_right] at sb
  have hcap1 : (k : ℚ) ≤ ((mtb.AllowRequestWithTokens identifier 1 t t).1.capacity : ℚ) := by
    rw [sc, hq]
    linarith
  obtain ⟨i1, i2⟩ := MemoryTokenBucket.decisions_drain identifier t k _ sb hcap1
  rw [sr] at i2
  constructor
  · rw [MemoryTokenBucket.decisions, List.map_cons, i1, hall]
    rfl
  · rw [MemoryTokenBucket.decisions, List.getLast?_cons, i2]
    rfl

/-- C5 (evaluation at the failing input). A new limiter with capacity 1 and refill rate
2 tokens per second receives two calls of cost 1 at the instant of creation: the first
is allowed and the second denied, as claimed, but the denial carries `waitTime = 0`
nanoseconds, not `1 / 2` second (500000000 ns): `time.Duration(1/2.0)` is 0 before it
is multiplied by `time.Second`. -/
theorem memory_exhaustion_waitTime_zero :
    (NewMemoryTokenBucket 1 2 1).decisions "ip:10.0.0.1" 1 0 2
      = [Decision.mk true 0 0, Decision.mk false 0 0] ∧
    (((0 : Int) : ℚ) ≠ 1 / 2 * 1000000000) := by
  norm_num [MemoryTokenBucket.decisions, MemoryTokenBucket.AllowRequestWithTokens,
    MemoryTokenBucket.getOrCreateBucket, MemoryTokenBucket.store, NewMemoryTokenBucket,
    Duration.Seconds_eq, Time.Sub, wrapInt64, floatToInt64, Second]

/-- The decoder on a list whose first element is not an `int64`: the assertion
`resultSlice[0].(int64)` panics. -/
theorem RedisTokenBucket.AllowRequestWithTokens_first_not_int64 (a b c : GoValue)
    (ha : ∀ n, a ≠ GoValue.int64 n) :
    RedisTokenBucket.AllowRequestWithTokens (.ok (.slice [a, b, c])) = GoResult.panicked := by
  cases a with
  | int64 n => exact absurd rfl (ha n)
  | nil => rfl
  | float64 x => rfl
  | string s => rfl
  | bool x => rfl
  | slice xs => rfl

/-- The decoder on a list whose third element is not a `float64`: one of the unchecked
assertions panics. -/
theorem RedisTokenBucket.AllowRequestWithTokens_third_not_float64 (a b c : GoValue)
    (hc : ∀ x, c ≠ GoValue.float64 x) :
    RedisTokenBucket.AllowRequestWithTokens (.ok (.slice [a, b, c])) = GoResult.panicked := by
  cases c with
  | float64 x => exact absurd rfl (hc x)
  | nil => cases a <;> cases b <;> rfl
  | int64 n => cases a <;> cases b <;> rfl
  | string s => cases a <;> cases b <;> rfl
  | bool x => cases a <;> cases b <;> rfl
  | slice xs => cases a <;> cases b <;> rfl

/-- Whatever Go value the store sends for each Lua number, as long as it depends on the
number alone, the decoder panics on one of the two tables the script returns:
`{1, tokens, 0}` needs the number 0 as a `float64` in third place, `{0, tokens, wait}`
needs it as an `int64` in first place. -/
theorem RedisTokenBucket.AllowRequestWithTokens_no_conversion (conv : ℚ → GoValue)
    (tokens1 tokens2 wait : ℚ) :
    RedisTokenBucket.AllowRequestWithTokens
        (.ok (.slice [conv 1, conv tokens1, conv 0])) = GoResult.panicked ∨
    RedisTokenBucket.AllowRequestWithTokens
        (.ok (.slice [conv 0, conv tokens2, conv wait])) = GoResult.panicked := by
  by_cases h : ∃ x, conv 0 = GoValue.float64 x
  · obtain ⟨x, hx⟩ := h
    right
    apply RedisTokenBucket.AllowRequestWithTokens_first_not_int64
    intro n hn
    rw [hx] at hn
    cases hn
  · left
    apply RedisTokenBucket.AllowRequestWithTokens_third_not_float64
    intro x hx
    exact h ⟨x, hx⟩

/-- On every table of the script as the store hands it back, three integers, the
decoder panics at `resultSlice[1].(float64)`. -/
theorem RedisTokenBucket.AllowRequestWithTokens_toGo (reply : LuaReply) :
    RedisTokenBucket.AllowRequestWithTokens (.ok reply.toGo) = GoResult.panicked := by
  rfl

/-- Full-capacity start before decoding. Memory backend: on a limiter with
`refillRate >= 0` the first call on an identifier without a bucket, with
`cost <= capacity`, is allowed (the call reads the clock in `getOrCreateBucket` and then
again under the lock, so `created <= now`). Distributed backend: on a key without a
record the script answers with the allowed flag 1 and `capacity - cost` remaining. -/
theorem first_call_memory_and_script (mtb : MemoryTokenBucket) (tb : RedisTokenBucket)
    (store : RedisStore) (identifier : String) (cost created now now1 : Int)
    (hrate : 0 ≤ mtb.refillRate)
    (hnone : mtb.buckets identifier = none) (hcost : cost ≤ mtb.capacity)
    (hclock : created ≤ now)
    (hnone1 : store (tb.key identifier) = none) (hcost1 : cost ≤ tb.capacity) :
    (mtb.AllowRequestWithTokens identifier cost created now).2.allowed = true ∧
    (tb.Eval store identifier cost now1).2
      = LuaReply.mk 1 ((tb.capacity : ℚ) - (cost : ℚ)) 0 := by
  have hq : (cost : ℚ) ≤ (mtb.capacity : ℚ) := by exact_mod_cast hcost
  have hq1 : (cost : ℚ) ≤ (tb.capacity : ℚ) := by exact_mod_cast hcost1
  have he : (0 : ℚ) ≤ ((now - created : Int) : ℚ) := by
    exact_mod_cast sub_nonneg.mpr hclock
  have hadd : (0 : ℚ) ≤ ((now - created : Int) : ℚ) / 1000000000 * mtb.refillRate := by
    positivity
  have hmin : min (mtb.capacity : ℚ)
      ((mtb.capacity : ℚ) + ((now - created : Int) : ℚ) / 1000000000 * mtb.refillRate)
      ≥ (cost : ℚ) := le_min hq (by linarith)
  constructor
  · simp only [MemoryTokenBucket.AllowRequestWithTokens,
      MemoryTokenBucket.getOrCreateBucket_of_none mtb identifier created hnone,
      Duration.Seconds_eq, Time.Sub]
    rw [if_pos hmin]
  · simp only [RedisTokenBucket.Eval, luaScript, HMGET, hnone1, tonumber, Option.getD_none,
      sub_self, zero_mul, add_zero, min_self]
    rw [if_pos hq1]

/-- C6 (evaluation at the failing input). Capacity 60 at one token per second, first
call of cost 1 on an identifier without bucket or record. The memory backend allows
it. In the distributed backend the script answers `{1, 59, 0}`, the store hands back
the three integers `[1, 59, 0]`, and `AllowRequestWithTokens` panics at
`resultSlice[1].(float64)` instead of returning `allowed = true`. -/
theorem redis_first_call_panics :
    ((NewMemoryTokenBucket 60 1 1).AllowRequestWithTokens "ip:10.0.0.1" 1 5 7).2.allowed
      = true ∧
    ((NewRedisTokenBucket 60 1 1).Eval (fun _ => none) "ip:10.0.0.1" 1 1700000000).2
      = LuaReply.mk 1 59 0 ∧
    (LuaReply.mk 1 59 0).toGo
      = GoValue.slice [GoValue.int64 1, GoValue.int64 59, GoValue.int64 0] ∧
    RedisTokenBucket.AllowRequestWithTokens
        (.ok ((NewRedisTokenBucket 60 1 1).Eval (fun _ => none) "ip:10.0.0.1" 1
          1700000000).2.toGo)
      = GoResult.panicked := by
  have h := first_call_memory_and_script (NewMemoryTokenBucket 60 1 1)
    (NewRedisTokenBucket 60 1 1) (fun _ => none) "ip:10.0.0.1" 1 5 7 1700000000
    (by norm_num [NewMemoryTokenBucket]) rfl (by decide) (by decide) rfl (by decide)
  refine ⟨h.1, ?_, ?_, RedisTokenBucket.AllowRequestWithTokens_toGo _⟩
  · rw [h.2]
    norm_num [NewRedisTokenBucket]
  · norm_num [LuaReply.toGo, floatToInt64]

/-! ## Refill determinism and the stored time stamp -/

/-- C7. Refill determinism (memory backend): a bucket holding 0 tokens that is touched
`e` nanoseconds (`e >= 0`) after its `lastRefill` reports, through `GetBucketState`,
and holds afterwards `min(capacity, e/10^9 * refillRate)` tokens. With capacity 60 and
refill rate 1 this is exactly 30 after exactly 30 seconds and exactly 60 after any idle
time of 60 seconds or more. -/
theorem memory_refill_from_zero (mtb : MemoryTokenBucket) (identifier : String)
    (created lastRefill : Int) (e : Nat)
    (hb : mtb.buckets identifier = some (tokenBucket.mk 0 lastRefill)) :
    ((mtb.GetBucketState identifier created (lastRefill + e)).2.1
      = min (mtb.capacity : ℚ) ((e : ℚ) / 1000000000 * mtb.refillRate) ∧
     (mtb.GetBucketState identifier created (lastRefill + e)).1.buckets identifier
      = some (tokenBucket.mk
          (min (mtb.capacity : ℚ) ((e : ℚ) / 1000000000 * mtb.refillRate))
          (lastRefill + e))) ∧
    (mtb.capacity = 60 → mtb.refillRate = 1 → e = 30000000000 →
      (mtb.GetBucketState identifier created (lastRefill + e)).2.1 = 30) ∧
    (mtb.capacity = 60 → mtb.refillRate = 1 → 60000000000 ≤ e →
      (mtb.GetBucketState identifier created (lastRefill + e)).2.1 = 60) := by
  have hval : (mtb.GetBucketState identifier created (lastRefill + e)).2.1
      = min (mtb.capacity : ℚ) ((e : ℚ) / 1000000000 * mtb.refillRate) := by
    simp only [MemoryTokenBucket.GetBucketState,
      MemoryTokenBucket.getOrCreateBucket_of_some mtb identifier created _ hb,
      Duration.Seconds_eq, Time.Sub]
    simp
  refine ⟨⟨hval, ?_⟩, ?_, ?_⟩
  · simp only [MemoryTokenBucket.GetBucketState,
      MemoryTokenBucket.getOrCreateBucket_of_some mtb identifier created _ hb,
      Duration.Seconds_eq, Time.Sub, MemoryTokenBucket.store_buckets_same]
    simp
  · intro hc hr he
    rw [hval, hc, hr, he]
    norm_num
  · intro hc hr he
    rw [hval, hc, hr]
    have : (60000000000 : ℚ) ≤ (e : ℚ) := by exact_mod_cast he
    have h60 : (60 : ℚ) ≤ (e : ℚ) / 1000000000 * 1 := by
      rw [mul_one, le_div_iff₀ (by norm_num)]
      linarith
    simpa using h60

/-- Witness of C7: capacity 60, refill rate 1, a drained bucket stamped at 5 s on the
clock and inspected 30 s later. -/
theorem memory_refill_from_zero_witness :
    (((NewMemoryTokenBucket 60 1 1).store "ip:10.0.0.1"
        (tokenBucket.mk 0 5000000000)).GetBucketState "ip:10.0.0.1" 0
          (5000000000 + (30000000000 : Nat))).2.1 = 30 :=
  (memory_refill_from_zero
    ((NewMemoryTokenBucket 60 1 1).store "ip:10.0.0.1" (tokenBucket.mk 0 5000000000))
    "ip:10.0.0.1" 0 5000000000 30000000000
    (by simp [MemoryTokenBucket.store])).2.1 rfl rfl rfl

/-- C8. In both backends every Allow call, allowed or denied, stores the call's time
stamp as the bucket's `lastRefill`: the memory backend writes `now` into the bucket of
the identifier, the script writes `now` into the `last_refill` field of the key. -/
theorem allow_persists_now (mtb : MemoryTokenBucket) (identifier : String)
    (cost created now : Int) (store : RedisStore) (key : String)
    (capacity refill_rate tokens_needed now1 : ℚ) :
    ((mtb.AllowRequestWithTokens identifier cost created now).1.buckets identifier).map
        tokenBucket.lastRefill = some now ∧
    ((luaScript store key capacity refill_rate tokens_needed now1).1 key).map
        RedisRecord.last_refill = some (HashField.number now1) := by
  constructor
  · rw [(mtb.AllowRequestWithTokens_state identifier cost created now).2.2]
    rfl
  · simp only [luaScript]
    split_ifs <;> simp [EXPIRE_HMSET_same]

/-- C9 (counterexample). Distributed backend, a record with `last_refill = 100`: an
Allow call stamped `now = 98` by its caller stores `last_refill = 98`, which is earlier
than what was stored before. -/
theorem redis_lastRefill_decreases :
    ((luaScript (Function.update (fun _ => none) "rate_limit:bucket:ip:10.0.0.1"
        (some (RedisRecord.mk (.number 5) (.number 100) (some 300))))
      "rate_limit:bucket:ip:10.0.0.1" 10 1 1 98).1 "rate_limit:bucket:ip:10.0.0.1").map
        RedisRecord.last_refill = some (HashField.number 98) ∧
    ¬ ((98 : ℚ) ≥ 100) := by
  norm_num [luaScript, HMGET, HMSET, EXPIRE, tonumber]

/-- C9 (amended). In either backend the `lastRefill` stored after an Allow call is
always the call's time stamp; it is therefore greater than or equal to the `lastRefill`
stored before exactly when the call's time stamp is not earlier than the stored value.
The calls of the memory backend read the monotonic clock of one process, which never
runs behind a stored reading; the distributed backend stores whatever time stamp the
calling instance supplies. -/
theorem lastRefill_is_call_time (mtb : MemoryTokenBucket) (identifier : String)
    (cost created now : Int) (tokens : ℚ) (lastRefill : Int)
    (store : RedisStore) (key : String)
    (capacity refill_rate tokens_needed now1 tokens1 last_refill : ℚ)
    (hb : mtb.buckets identifier = some (tokenBucket.mk tokens lastRefill))
    (hg : HMGET store key = (HashField.number tokens1, HashField.number last_refill)) :
    (∃ b0 b, mtb.buckets identifier = some b0 ∧
      (mtb.AllowRequestWithTokens identifier cost created now).1.buckets identifier
        = some b ∧ b.lastRefill = now ∧
      (b0.lastRefill ≤ b.lastRefill ↔ b0.lastRefill ≤ now)) ∧
    (∃ record0 record l0 l, store key = some record0 ∧
      record0.last_refill = HashField.number l0 ∧
      (luaScript store key capacity refill_rate tokens_needed now1).1 key = some record ∧
      record.last_refill = HashField.number l ∧ l = now1 ∧ (l0 ≤ l ↔ l0 ≤ now1)) := by
  constructor
  · exact ⟨_, _, hb, (mtb.AllowRequestWithTokens_state identifier cost created now).2.2,
      rfl, Iff.rfl⟩
  · have hs := (luaScript_of_numbers store key capacity refill_rate tokens_needed now1
      tokens1 last_refill hg).2
    cases hrec : store key with
    | none =>
      simp [HMGET, hrec] at hg
    | some record0 =>
      simp only [HMGET, hrec, Prod.mk.injEq] at hg
      exact ⟨record0, _, last_refill, now1, rfl, hg.2, hs, rfl, rfl, Iff.rfl⟩

/-- Witness of C9 (amended): both backends, a state stamped 100; the memory call is
stamped 250 and the bucket is stamped 250 afterwards; the distributed call is stamped
98, earlier than the stored value, and the record is stamped 98 afterwards. -/
theorem lastRefill_is_call_time_witness :
    (∃ b0 b, ((NewMemoryTokenBucket 10 1 1).store "ip:10.0.0.1"
        (tokenBucket.mk 5 100)).buckets "ip:10.0.0.1" = some b0 ∧
      (((NewMemoryTokenBucket 10 1 1).store "ip:10.0.0.1"
        (tokenBucket.mk 5 100)).AllowRequestWithTokens "ip:10.0.0.1" 1 0
          250).1.buckets "ip:10.0.0.1" = some b ∧
      b.lastRefill = 250 ∧ (b0.lastRefill ≤ b.lastRefill ↔ b0.lastRefill ≤ 250)) ∧
    (∃ record0 record l0 l,
      (Function.update (fun _ => none) "rate_limit:bucket:ip:10.0.0.1"
        (some (RedisRecord.mk (.number 5) (.number 100) (some 300))))
        "rate_limit:bucket:ip:10.0.0.1" = some record0 ∧
      record0.last_refill = HashField.number l0 ∧
      (luaScript (Function.update (fun _ => none) "rate_limit:bucket:ip:10.0.0.1"
        (some (RedisRecord.mk (.number 5) (.number 100) (some 300))))
      "rate_limit:bucket:ip:10.0.0.1" 10 1 1 98).1 "rate_limit:bucket:ip:10.0.0.1"
        = some record ∧
      record.last_refill = HashField.number l ∧ l = 98 ∧ (l0 ≤ l ↔ l0 ≤ 98)) :=
  lastRefill_is_call_time
    ((NewMemoryTokenBucket 10 1 1).store "ip:10.0.0.1" (tokenBucket.mk 5 100))
    "ip:10.0.0.1" 1 0 250 5 100
    (Function.update (fun _ => none) "rate_limit:bucket:ip:10.0.0.1"
      (some (RedisRecord.mk (.number 5) (.number 100) (some 300))))
    "rate_limit:bucket:ip:10.0.0.1" 10 1 1 98 5 100
    (by simp [MemoryTokenBucket.store])
    (by simp [HMGET])

/-! ## Decoding the store's answer -/

/-- The shapes the decoder does check: a failed evaluation, a value that is not a
list and a list whose length is not 3 all come back as a non-nil error. -/
theorem RedisTokenBucket.AllowRequestWithTokens_checked_shapes :
    (∀ e : String, ∃ d, RedisTokenBucket.AllowRequestWithTokens (.error e) = .returned d ∧
      d.err ≠ none) ∧
    (∀ v : GoValue, (∀ xs, v ≠ GoValue.slice xs) →
      ∃ d, RedisTokenBucket.AllowRequestWithTokens (.ok v) = .returned d ∧ d.err ≠ none) ∧
    (∀ xs : List GoValue, xs.length ≠ 3 →
      ∃ d, RedisTokenBucket.AllowRequestWithTokens (.ok (.slice xs)) = .returned d ∧
        d.err ≠ none) := by
  refine ⟨fun e => ⟨_, rfl, by simp⟩, fun v hv => ?_, fun xs hxs => ?_⟩
  · cases v with
    | slice xs => exact absurd rfl (hv xs)
    | nil => exact ⟨_, rfl, by simp⟩
    | int64 n => exact ⟨_, rfl, by simp⟩
    | float64 x => exact ⟨_, rfl, by simp⟩
    | string s => exact ⟨_, rfl, by simp⟩
    | bool b => exact ⟨_, rfl, by simp⟩
  · match xs, hxs with
    | [], _ => exact ⟨_, rfl, by simp⟩
    | [_], _ => exact ⟨_, rfl, by simp⟩
    | [_, _], _ => exact ⟨_, rfl, by simp⟩
    | [_, _, _], h => exact absurd rfl h
    | _ :: _ :: _ :: _ :: _, _ => exact ⟨_, rfl, by simp⟩

/-- C10 (evaluation at the failing input). When `Eval` hands back the three-element
list `[int64 1, int64 59, int64 0]`, the length check passes and the unchecked type
assertion `resultSlice[1].(float64)` panics: the call neither returns a decision nor an
error. -/
theorem redis_decode_panics_on_integers :
    RedisTokenBucket.AllowRequestWithTokens
        (.ok (GoValue.slice [GoValue.int64 1, GoValue.int64 59, GoValue.int64 0]))
      = GoResult.panicked := by
  rfl

/-! ## Identifiers -/

/-- Appending to a common left part is injective. -/
theorem string_append_left_cancel (a p q : String) (h : a ++ p = a ++ q) : p = q := by
  have hd := congrArg String.data h
  simp only [String.data_append, List.append_cancel_left_eq] at hd
  exact String.ext hd

/-- An identifier of the user namespace differs from every identifier of the address
namespace. -/
theorem user_ne_ip (u a : String) : "user:" ++ u ≠ "ip:" ++ a := by
  intro h
  have hd := congrArg String.data h
  simp at hd

/-- `GetString` on a key that holds a string. -/
theorem Context.GetString_of_string (c : Context) (key s : String)
    (h : c.Keys key = some (GoValue.string s)) : c.GetString key = s := by
  simp [Context.GetString, h]

/-- `GetString` is empty unless the key holds a non-empty string. -/
theorem Context.GetString_eq_empty (c : Context) (key : String)
    (h : ¬ ∃ u, c.Keys key = some (GoValue.string u) ∧ u ≠ "") : c.GetString key = "" := by
  unfold Context.GetString
  split
  · next s hs =>
    by_contra hne
    exact h ⟨s, hs, hne⟩
  · rfl

/-- The limiter after `AllowRequestWithTokens` holds, for every other identifier, the
entry it held before. -/
theorem MemoryTokenBucket.AllowRequestWithTokens_buckets_other (mtb : MemoryTokenBucket)
    (identifier other : String) (tokensNeeded created now : Int) (h : other ≠ identifier) :
    (mtb.AllowRequestWithTokens identifier tokensNeeded created now).1.buckets other
      = mtb.buckets other := by
  have hg : (mtb.getOrCreateBucket identifier created).1.buckets other = mtb.buckets other := by
    cases hb : mtb.buckets identifier with
    | none =>
      rw [MemoryTokenBucket.getOrCreateBucket_of_none mtb identifier created hb]
      simp [MemoryTokenBucket.store, Function.update_noteq h]
    | some b =>
      rw [MemoryTokenBucket.getOrCreateBucket_of_some mtb identifier created b hb]
  simp only [MemoryTokenBucket.AllowRequestWithTokens]
  split_ifs <;> simp [MemoryTokenBucket.store, Function.update_noteq h, hg]

/-- C16. Identifier resolver `getIdentifier`: when the context's `user_id` is a
non-empty string `u` the result is `"user:"` followed by `u`, whatever the client
address; otherwise it is `"ip:"` followed by the client address. The result is never
empty, and the identifier of a caller with a non-empty `user_id` differs from the
identifier of every caller without one. -/
theorem getIdentifier_resolves (c c2 : Context) :
    (∀ u, c.Keys "user_id" = some (GoValue.string u) → u ≠ "" →
      getIdentifier c = "user:" ++ u) ∧
    ((¬ ∃ u, c.Keys "user_id" = some (GoValue.string u) ∧ u ≠ "") →
      getIdentifier c = "ip:" ++ c.clientIP) ∧
    getIdentifier c ≠ "" ∧
    ((∃ u, c.Keys "user_id" = some (GoValue.string u) ∧ u ≠ "") →
      (¬ ∃ u, c2.Keys "user_id" = some (GoValue.string u) ∧ u ≠ "") →
      getIdentifier c ≠ getIdentifier c2) := by
  have huser : ∀ (k : Context) (u : String), k.Keys "user_id" = some (GoValue.string u) →
      u ≠ "" → getIdentifier k = "user:" ++ u := by
    intro k u hk hu
    simp [getIdentifier, k.GetString_of_string "user_id" u hk, hu]
  have hip : ∀ k : Context, (¬ ∃ u, k.Keys "user_id" = some (GoValue.string u) ∧ u ≠ "") →
      getIdentifier k = "ip:" ++ k.clientIP := by
    intro k hk
    simp [getIdentifier, k.GetString_eq_empty "user_id" hk]
  refine ⟨huser c, hip c, ?_, ?_⟩
  · intro h
    have hd := congrArg String.length h
    simp only [getIdentifier] at hd
    split_ifs at hd
    · simp only [String.length_append] at hd
      have h5 : "user:".length = 5 := by decide
      have h0 : "".length = 0 := by decide
      omega
    · simp only [String.length_append] at hd
      have h3 : "ip:".length = 3 := by decide
      have h0 : "".length = 0 := by decide
      omega
  · rintro ⟨u, hu, hne⟩ h2
    rw [huser c u hu hne, hip c2 h2]
    exact user_ne_ip u c2.clientIP

/-- Witness of C16: a context carrying the user id `42` against a context without a
user id, both from the address `10.0.0.1`. -/
theorem getIdentifier_resolves_witness :
    getIdentifier (Context.mk (fun k => if k = "user_id" then some (GoValue.string "42")
        else none) "10.0.0.1" "/api/v1/auth/login") = "user:" ++ "42" ∧
    getIdentifier (Context.mk (fun _ => none) "10.0.0.1" "/api/v1/auth/login")
      = "ip:" ++ "10.0.0.1" ∧
    getIdentifier (Context.mk (fun k => if k = "user_id" then some (GoValue.string "42")
        else none) "10.0.0.1" "/api/v1/auth/login")
      ≠ getIdentifier (Context.mk (fun _ => none) "10.0.0.1" "/api/v1/auth/login") :=
  ⟨(getIdentifier_resolves
      (Context.mk (fun k => if k = "user_id" then some (GoValue.string "42") else none)
        "10.0.0.1" "/api/v1/auth/login")
      (Context.mk (fun _ => none) "10.0.0.1" "/api/v1/auth/login")).1 "42" (by simp)
      (by decide),
   (getIdentifier_resolves (Context.mk (fun _ => none) "10.0.0.1" "/api/v1/auth/login")
      (Context.mk (fun _ => none) "10.0.0.1" "/api/v1/auth/login")).2.1 (by simp),
   (getIdentifier_resolves
      (Context.mk (fun k => if k = "user_id" then some (GoValue.string "42") else none)
        "10.0.0.1" "/api/v1/auth/login")
      (Context.mk (fun _ => none) "10.0.0.1" "/api/v1/auth/login")).2.2.2
      ⟨"42", by simp, by decide⟩ (by simp)⟩

/-- C17. Per-route scoping `getEndpointIdentifier`: the result is the base identifier, a
colon, then the route's full path; for one base identifier two different route paths
give two different identifiers, and a call of the memory backend on one of them leaves
the bucket of the other untouched. -/
theorem getEndpointIdentifier_separates (c c2 : Context) (baseIdentifier : String)
    (mtb : MemoryTokenBucket) (cost created now : Int) :
    getEndpointIdentifier c baseIdentifier = baseIdentifier ++ ":" ++ c.fullPath ∧
    (c.fullPath ≠ c2.fullPath →
      getEndpointIdentifier c baseIdentifier ≠ getEndpointIdentifier c2 baseIdentifier ∧
      (mtb.AllowRequestWithTokens (getEndpointIdentifier c baseIdentifier) cost created
          now).1.buckets (getEndpointIdentifier c2 baseIdentifier)
        = mtb.buckets (getEndpointIdentifier c2 baseIdentifier)) := by
  refine ⟨rfl, fun hne => ?_⟩
  have hdiff : getEndpointIdentifier c baseIdentifier
      ≠ getEndpointIdentifier c2 baseIdentifier := by
    intro h
    simp only [getEndpointIdentifier, String.append_assoc] at h
    exact hne (string_append_left_cancel _ _ _ (string_append_left_cancel _ _ _ h))
  exact ⟨hdiff, mtb.AllowRequestWithTokens_buckets_other _ _ cost created now
    (fun h => hdiff h.symm)⟩

/-- Witness of C17: the caller `ip:10.0.0.1` on the login and on the register route. -/
theorem getEndpointIdentifier_separates_witness :
    getEndpointIdentifier (Context.mk (fun _ => none) "10.0.0.1" "/api/v1/auth/login")
        "ip:10.0.0.1"
      ≠ getEndpointIdentifier (Context.mk (fun _ => none) "10.0.0.1" "/api/v1/auth/register")
        "ip:10.0.0.1" :=
  ((getEndpointIdentifier_separates
      (Context.mk (fun _ => none) "10.0.0.1" "/api/v1/auth/login")
      (Context.mk (fun _ => none) "10.0.0.1" "/api/v1/auth/register")
      "ip:10.0.0.1" (NewMemoryTokenBucket 60 1 1) 1 0 0).2 (by decide)).1

/-- C20. Configuration conversion: for every `requestsPerMinute`, both
`MemoryTokenBucketMiddleware` and `TokenBucketMiddleware` capture
`capacity = requestsPerMinute` and build their limiter with that capacity,
`refillRate = requestsPerMinute / 60` as a fraction (90 gives 1.5) and
`tokensPerReq = 1`. -/
theorem middleware_configuration (requestsPerMinute : Int) :
    ((MemoryTokenBucketMiddleware requestsPerMinute).1 = requestsPerMinute ∧
     (MemoryTokenBucketMiddleware requestsPerMinute).2.capacity = requestsPerMinute ∧
     (MemoryTokenBucketMiddleware requestsPerMinute).2.refillRate
        = (requestsPerMinute : ℚ) / 60 ∧
     (MemoryTokenBucketMiddleware requestsPerMinute).2.tokensPerReq = 1) ∧
    ((TokenBucketMiddleware requestsPerMinute).1 = requestsPerMinute ∧
     (TokenBucketMiddleware requestsPerMinute).2.capacity = requestsPerMinute ∧
     (TokenBucketMiddleware requestsPerMinute).2.refillRate
        = (requestsPerMinute : ℚ) / 60 ∧
     (TokenBucketMiddleware requestsPerMinute).2.tokensPerReq = 1) ∧
    (MemoryTokenBucketMiddleware 90).2.refillRate = 3 / 2 ∧
    (TokenBucketMiddleware 90).2.refillRate = 3 / 2 := by
  refine ⟨⟨rfl, rfl, rfl, rfl⟩, ⟨rfl, rfl, rfl, rfl⟩, ?_, ?_⟩
  · norm_num [MemoryTokenBucketMiddleware, NewMemoryTokenBucket]
  · norm_num [TokenBucketMiddleware, NewRedisTokenBucket]

/-! ## Rounding to `float64` -/

/-- The binary exponent of a value lying between two consecutive powers of two. -/
theorem log_two_abs_eq (x : ℚ) (e : Int) (h1 : (2 : ℚ) ^ e ≤ |x|)
    (h2 : |x| < (2 : ℚ) ^ (e + 1)) : Int.log 2 |x| = e := by
  have hpos : 0 < |x| := lt_of_lt_of_le (by positivity) h1
  have ha : e ≤ Int.log 2 |x| :=
    (Int.zpow_le_iff_le_log (by norm_num) hpos).mp (by exact_mod_cast h1)
  have hb : Int.log 2 |x| < e + 1 :=
    (Int.lt_zpow_iff_log_lt (by norm_num) hpos).mp (by exact_mod_cast h2)
  omega

/-- A value of the normal range with binary exponent `e` is rounded to the nearest
multiple of `2^(e-52)`. -/
theorem round64_of_exponent (x : ℚ) (e : Int) (h1 : (2 : ℚ) ^ e ≤ |x|)
    (h2 : |x| < (2 : ℚ) ^ (e + 1)) (he : -1022 ≤ e) :
    round64 x = (roundHalfEven (x / (2 : ℚ) ^ (e - 52)) : ℚ) * (2 : ℚ) ^ (e - 52) := by
  have hpos : 0 < |x| := lt_of_lt_of_le (by positivity) h1
  have hx : x ≠ 0 := abs_pos.mp hpos
  unfold round64
  rw [if_neg hx, log_two_abs_eq x e h1 h2, max_eq_left (by omega)]

/-- Zero is a `float64`. -/
theorem round64_zero : round64 0 = 0 := by
  simp [round64]

/-- The `float64` nearest to 3/4 is 3/4. -/
theorem round64_three_quarters : round64 (3 / 4) = 3 / 4 := by
  rw [round64_of_exponent (3 / 4) (-1) (by norm_num [abs_of_pos])
    (by norm_num [abs_of_pos]) (by norm_num)]
  norm_num [roundHalfEven]

/-- One is a `float64`. -/
theorem round64_one : round64 1 = 1 := by
  rw [round64_of_exponent 1 0 (by norm_num [abs_of_pos]) (by norm_num [abs_of_pos])
    (by norm_num)]
  norm_num [roundHalfEven]

/-- Two is a `float64`. -/
theorem round64_two : round64 2 = 2 := by
  rw [round64_of_exponent 2 1 (by norm_num [abs_of_pos]) (by norm_num [abs_of_pos])
    (by norm_num)]
  norm_num [roundHalfEven]

/-- Thirty is a `float64`. -/
theorem round64_thirty : round64 30 = 30 := by
  rw [round64_of_exponent 30 4 (by norm_num [abs_of_pos]) (by norm_num [abs_of_pos])
    (by norm_num)]
  norm_num [roundHalfEven]

/-- An elapsed time of zero is 0 as a `float64`. -/
theorem Seconds64_zero : Duration.Seconds64 0 = 0 := by
  have hs : Int.tdiv 0 Second = 0 := by decide
  have hn : Int.tmod 0 Second = 0 := by decide
  simp only [Duration.Seconds64, hs, hn, Int.cast_zero, round64_zero, zero_div, zero_add]

/-- An elapsed time of 2 s is 2 as a `float64`. -/
theorem Seconds64_2s : Duration.Seconds64 2000000000 = 2 := by
  have hs : Int.tdiv 2000000000 Second = 2 := by decide
  have hn : Int.tmod 2000000000 Second = 0 := by decide
  simp only [Duration.Seconds64, hs, hn, Int.cast_zero, Int.cast_ofNat, round64_zero, zero_div,
    round64_two, add_zero]

/-- An elapsed time of 3 ms, as the `float64` that `Seconds` returns, lies just below
0.003. -/
theorem Seconds64_3ms :
    Duration.Seconds64 3000000 = 3458764513820541 / 1152921504606846976 := by
  have hs : Int.tdiv 3000000 Second = 0 := by decide
  have hn : Int.tmod 3000000 Second = 3000000 := by decide
  have h1 : round64 (3000000 : ℚ) = 3000000 := by
    rw [round64_of_exponent 3000000 21 (by norm_num [abs_of_pos])
      (by norm_num [abs_of_pos]) (by norm_num)]
    norm_num [roundHalfEven]
  have h2 : round64 (3 / 1000 : ℚ) = 3458764513820541 / 1152921504606846976 := by
    rw [round64_of_exponent (3 / 1000) (-9) (by norm_num [abs_of_pos])
      (by norm_num [abs_of_pos]) (by norm_num)]
    norm_num [roundHalfEven]
  have h3 : round64 (3458764513820541 / 1152921504606846976 : ℚ)
      = 3458764513820541 / 1152921504606846976 := by
    rw [round64_of_exponent _ (-9) (by norm_num [abs_of_pos])
      (by norm_num [abs_of_pos]) (by norm_num)]
    norm_num [roundHalfEven]
  simp only [Duration.Seconds64, hs, hn, Int.cast_zero, Int.cast_ofNat, round64_zero, h1,
    zero_add]
  norm_num [h2, h3]

/-- An elapsed time of 1.997 s as the `float64` that `Seconds` returns. -/
theorem Seconds64_1997ms :
    Duration.Seconds64 1997000000 = 140526382122795 / 70368744177664 := by
  have hs : Int.tdiv 1997000000 Second = 1 := by decide
  have hn : Int.tmod 1997000000 Second = 997000000 := by decide
  have h1 : round64 (997000000 : ℚ) = 997000000 := by
    rw [round64_of_exponent 997000000 29 (by norm_num [abs_of_pos])
      (by norm_num [abs_of_pos]) (by norm_num)]
    norm_num [roundHalfEven]
  have h2 : round64 (997 / 1000 : ℚ) = 8980177656976769 / 9007199254740992 := by
    rw [round64_of_exponent (997 / 1000) (-1) (by norm_num [abs_of_pos])
      (by norm_num [abs_of_pos]) (by norm_num)]
    norm_num [roundHalfEven]
  have h3 : round64 (1 + 8980177656976769 / 9007199254740992 : ℚ)
      = 140526382122795 / 70368744177664 := by
    rw [round64_of_exponent _ 0 (by norm_num [abs_of_pos])
      (by norm_num [abs_of_pos]) (by norm_num)]
    norm_num [roundHalfEven]
  have h4 : (997000000 : ℚ) / 1000000000 = 997 / 1000 := by norm_num
  simp only [Duration.Seconds64, hs, hn, Int.cast_one, Int.cast_ofNat, round64_one, h1, h4, h2,
    h3]


/-- Half of the `float64` of 0.003 is a `float64`. -/
theorem round64_half_3ms : round64 (3458764513820541 / 2305843009213693952)
    = 3458764513820541 / 2305843009213693952 := by
  rw [round64_of_exponent _ (-10) (by norm_num [abs_of_pos]) (by norm_num [abs_of_pos])
    (by norm_num)]
  norm_num [roundHalfEven]

/-- Half of the `float64` of 1.997 is a `float64`. -/
theorem round64_half_1997ms : round64 (140526382122795 / 140737488355328)
    = 140526382122795 / 140737488355328 := by
  rw [round64_of_exponent _ (-1) (by norm_num [abs_of_pos]) (by norm_num [abs_of_pos])
    (by norm_num)]
  norm_num [roundHalfEven]

/-- The sum of the two halves lies between `1 - 2^(-53)` and 1 and is rounded down to
`1 - 2^(-53)`. -/
theorem round64_refill_sum : round64 (2305843009213693821 / 2305843009213693952)
    = 9007199254740991 / 9007199254740992 := by
  rw [round64_of_exponent _ (-1) (by norm_num [abs_of_pos]) (by norm_num [abs_of_pos])
    (by norm_num)]
  norm_num [roundHalfEven]

/-- The power `2^(-53)` is a `float64`. -/
theorem round64_ulp53 : round64 (1 / 9007199254740992) = 1 / 9007199254740992 := by
  rw [round64_of_exponent _ (-53) (by norm_num [abs_of_pos]) (by norm_num [abs_of_pos])
    (by norm_num)]
  norm_num [roundHalfEven]

/-- The power `2^(-52)` is a `float64`. -/
theorem round64_ulp52 : round64 (1 / 4503599627370496) = 1 / 4503599627370496 := by
  rw [round64_of_exponent _ (-52) (by norm_num [abs_of_pos]) (by norm_num [abs_of_pos])
    (by norm_num)]
  norm_num [roundHalfEven]

/-- Four is a `float64`. -/
theorem round64_four : round64 4 = 4 := by
  rw [round64_of_exponent 4 2 (by norm_num [abs_of_pos]) (by norm_num [abs_of_pos])
    (by norm_num)]
  norm_num [roundHalfEven]

/-- An elapsed time of 4 s is 4 as a `float64`. -/
theorem Seconds64_4s : Duration.Seconds64 4000000000 = 4 := by
  have hs : Int.tdiv 4000000000 Second = 4 := by decide
  have hn : Int.tmod 4000000000 Second = 0 := by decide
  simp only [Duration.Seconds64, hs, hn, Int.cast_zero, Int.cast_ofNat, round64_zero, zero_div,
    round64_four, add_zero]

/-- A wait of 1 s is 1 as a `float64`. -/
theorem Seconds64_1s : Duration.Seconds64 1000000000 = 1 := by
  have hs : Int.tdiv 1000000000 Second = 1 := by decide
  have hn : Int.tmod 1000000000 Second = 0 := by decide
  simp only [Duration.Seconds64, hs, hn, Int.cast_zero, Int.cast_one, round64_zero, zero_div,
    round64_one, add_zero]

/-- A wait of 750 ms is 0.75 s as a `float64`. -/
theorem Seconds64_750ms : Duration.Seconds64 750000000 = 3 / 4 := by
  have hs : Int.tdiv 750000000 Second = 0 := by decide
  have hn : Int.tmod 750000000 Second = 750000000 := by decide
  have h1 : round64 (750000000 : ℚ) = 750000000 := by
    rw [round64_of_exponent 750000000 29 (by norm_num [abs_of_pos])
      (by norm_num [abs_of_pos]) (by norm_num)]
    norm_num [roundHalfEven]
  simp only [Duration.Seconds64, hs, hn, Int.cast_zero, Int.cast_ofNat, round64_zero, h1,
    zero_add]
  norm_num [round64_three_quarters]

/-- A wait of 5 ms, as the `float64` that `Seconds` returns, lies just above 0.005. -/
theorem Seconds64_5ms :
    Duration.Seconds64 5000000 = 5764607523034235 / 1152921504606846976 := by
  have hs : Int.tdiv 5000000 Second = 0 := by decide
  have hn : Int.tmod 5000000 Second = 5000000 := by decide
  have h1 : round64 (5000000 : ℚ) = 5000000 := by
    rw [round64_of_exponent 5000000 22 (by norm_num [abs_of_pos])
      (by norm_num [abs_of_pos]) (by norm_num)]
    norm_num [roundHalfEven]
  have h2 : round64 (1 / 200 : ℚ) = 5764607523034235 / 1152921504606846976 := by
    rw [round64_of_exponent (1 / 200) (-8) (by norm_num [abs_of_pos])
      (by norm_num [abs_of_pos]) (by norm_num)]
    norm_num [roundHalfEven]
  have h3 : round64 (5764607523034235 / 1152921504606846976 : ℚ)
      = 5764607523034235 / 1152921504606846976 := by
    rw [round64_of_exponent _ (-8) (by norm_num [abs_of_pos])
      (by norm_num [abs_of_pos]) (by norm_num)]
    norm_num [roundHalfEven]
  simp only [Duration.Seconds64, hs, hn, Int.cast_zero, Int.cast_ofNat, round64_zero, h1,
    zero_add]
  norm_num [h2, h3]

/-- The verb `%.2f` prints a wait of 5 ms as `0.01`: the `float64` lies above the tie. -/
theorem Sprintf_2f_5ms : Sprintf_2f (Duration.Seconds64 5000000) = "0.01" := by
  have h2 : |(5764607523034235 / 1152921504606846976 : ℚ)| * 100
      = 144115188075855875 / 288230376151711744 := by
    rw [abs_of_pos (by norm_num)]
    norm_num
  have h3 : roundHalfEven (144115188075855875 / 288230376151711744) = 1 := by
    norm_num [roundHalfEven]
  have h4 : ¬ ((5764607523034235 / 1152921504606846976 : ℚ) < 0) := by norm_num
  simp only [Sprintf_2f, Seconds64_5ms, h2, h3, if_neg h4]
  decide

/-- A wait of 15 ms, as the `float64` that `Seconds` returns, lies just below 0.015. -/
theorem Seconds64_15ms :
    Duration.Seconds64 15000000 = 1080863910568919 / 72057594037927936 := by
  have hs : Int.tdiv 15000000 Second = 0 := by decide
  have hn : Int.tmod 15000000 Second = 15000000 := by decide
  have h1 : round64 (15000000 : ℚ) = 15000000 := by
    rw [round64_of_exponent 15000000 23 (by norm_num [abs_of_pos])
      (by norm_num [abs_of_pos]) (by norm_num)]
    norm_num [roundHalfEven]
  have h2 : round64 (3 / 200 : ℚ) = 1080863910568919 / 72057594037927936 := by
    rw [round64_of_exponent (3 / 200) (-7) (by norm_num [abs_of_pos])
      (by norm_num [abs_of_pos]) (by norm_num)]
    norm_num [roundHalfEven]
  have h3 : round64 (1080863910568919 / 72057594037927936 : ℚ)
      = 1080863910568919 / 72057594037927936 := by
    rw [round64_of_exponent _ (-7) (by norm_num [abs_of_pos])
      (by norm_num [abs_of_pos]) (by norm_num)]
    norm_num [roundHalfEven]
  simp only [Duration.Seconds64, hs, hn, Int.cast_zero, Int.cast_ofNat, round64_zero, h1,
    zero_add]
  norm_num [h2, h3]

/-- A wait of 25 ms, as the `float64` that `Seconds` returns, lies just above 0.025. -/
theorem Seconds64_25ms :
    Duration.Seconds64 25000000 = 3602879701896397 / 144115188075855872 := by
  have hs : Int.tdiv 25000000 Second = 0 := by decide
  have hn : Int.tmod 25000000 Second = 25000000 := by decide
  have h1 : round64 (25000000 : ℚ) = 25000000 := by
    rw [round64_of_exponent 25000000 24 (by norm_num [abs_of_pos])
      (by norm_num [abs_of_pos]) (by norm_num)]
    norm_num [roundHalfEven]
  have h2 : round64 (1 / 40 : ℚ) = 3602879701896397 / 144115188075855872 := by
    rw [round64_of_exponent (1 / 40) (-6) (by norm_num [abs_of_pos])
      (by norm_num [abs_of_pos]) (by norm_num)]
    norm_num [roundHalfEven]
  have h3 : round64 (3602879701896397 / 144115188075855872 : ℚ)
      = 3602879701896397 / 144115188075855872 := by
    rw [round64_of_exponent _ (-6) (by norm_num [abs_of_pos])
      (by norm_num [abs_of_pos]) (by norm_num)]
    norm_num [roundHalfEven]
  simp only [Duration.Seconds64, hs, hn, Int.cast_zero, Int.cast_ofNat, round64_zero, h1,
    zero_add]
  norm_num [h2, h3]

/-- The verb `%.2f` prints a wait of 15 ms as `0.01` and a wait of 25 ms as `0.03`: the
`float64` of 0.015 lies below the tie, the `float64` of 0.025 above it. -/
theorem Sprintf_2f_15ms_25ms :
    Sprintf_2f (Duration.Seconds64 15000000) = "0.01" ∧
    Sprintf_2f (Duration.Seconds64 25000000) = "0.03" := by
  constructor
  · have h2 : |(1080863910568919 / 72057594037927936 : ℚ)| * 100
        = 27021597764222975 / 18014398509481984 := by
      rw [abs_of_pos (by norm_num)]
      norm_num
    have h3 : roundHalfEven (27021597764222975 / 18014398509481984) = 1 := by
      norm_num [roundHalfEven]
    have h4 : ¬ ((1080863910568919 / 72057594037927936 : ℚ) < 0) := by norm_num
    simp only [Sprintf_2f, Seconds64_15ms, h2, h3, if_neg h4]
    decide
  · have h2 : |(3602879701896397 / 144115188075855872 : ℚ)| * 100
        = 90071992547409925 / 36028797018963968 := by
      rw [abs_of_pos (by norm_num)]
      norm_num
    have h3 : roundHalfEven (90071992547409925 / 36028797018963968) = 3 := by
      norm_num [roundHalfEven]
    have h4 : ¬ ((3602879701896397 / 144115188075855872 : ℚ) < 0) := by norm_num
    simp only [Sprintf_2f, Seconds64_25ms, h2, h3, if_neg h4]
    decide

/-! ## The middlewares -/

/-- Inside its range the conversion `int(x)` of a `float64` is truncation toward
zero. -/
theorem floatToInt64_of_inRange (x : ℚ)
    (hlo : -(2 ^ 63) ≤ (if 0 ≤ x then ⌊x⌋ else ⌈x⌉))
    (hhi : (if 0 ≤ x then ⌊x⌋ else ⌈x⌉) < 2 ^ 63) :
    floatToInt64 x = if 0 ≤ x then ⌊x⌋ else ⌈x⌉ := by
  simp only [floatToInt64]
  rw [if_pos ⟨hlo, hhi⟩]

/-- The response of the memory middleware in closed form. -/
theorem MemoryTokenBucketMiddleware.handler_memory_response (capacity : Int)
    (limiter : MemoryTokenBucket) (c : Context) (created now wall : Int) :
    (MemoryTokenBucketMiddleware.handler capacity limiter c created now wall).2
      = if (limiter.AllowRequest (getIdentifier c) created now).2.allowed = false then
          Response.mk
            [("X-RateLimit-Limit", Itoa capacity),
             ("X-RateLimit-Remaining", Itoa (floatToInt64
                (limiter.AllowRequest (getIdentifier c) created now).2.remainingTokens)),
             ("X-RateLimit-Reset", FormatInt (Time.Unix
                (wall + (limiter.AllowRequest (getIdentifier c) created now).2.waitTime))),
             ("X-RateLimit-Type", "token-bucket")]
            (some 429)
            (some (ErrorResponse.mk "rate_limit_exceeded"
              ("Rate limit exceeded. Try again in "
                ++ Sprintf_2f (Duration.Seconds64
                    (limiter.AllowRequest (getIdentifier c) created now).2.waitTime)
                ++ " seconds.")))
            true false
        else
          Response.mk
            [("X-RateLimit-Limit", Itoa capacity),
             ("X-RateLimit-Remaining", Itoa (floatToInt64
                (limiter.AllowRequest (getIdentifier c) created now).2.remainingTokens)),
             ("X-RateLimit-Reset", FormatInt (Time.Unix
                (wall + (limiter.AllowRequest (getIdentifier c) created now).2.waitTime))),
             ("X-RateLimit-Type", "token-bucket")]
            none none false true := by
  unfold MemoryTokenBucketMiddleware.handler
  dsimp only
  generalize limiter.AllowRequest (getIdentifier c) created now = x
  obtain ⟨l1, dd⟩ := x
  obtain ⟨al, rem, wt⟩ := dd
  cases al
  · rfl
  · rfl

/-- The response of the distributed middleware in closed form, when `AllowRequest`
returns. -/
theorem TokenBucketMiddleware.handler_redis_response (capacity : Int)
    (result : Except String GoValue) (wall : Int) (d : RedisDecision)
    (h : RedisTokenBucket.AllowRequest result = GoResult.returned d) :
    TokenBucketMiddleware.handler capacity result wall
      = GoResult.returned
          (if d.err ≠ none then
            Response.mk
              [("X-RateLimit-Limit", Itoa capacity),
               ("X-RateLimit-Remaining", Itoa capacity),
               ("X-RateLimit-Reset", FormatInt (Time.Unix wall)),
               ("X-RateLimit-Type", "token-bucket")]
              none none false true
          else if d.allowed = false then
            Response.mk
              [("X-RateLimit-Limit", Itoa capacity),
               ("X-RateLimit-Remaining", Itoa (floatToInt64 d.remainingTokens)),
               ("X-RateLimit-Reset", FormatInt (Time.Unix (wall + d.waitTime))),
               ("X-RateLimit-Type", "token-bucket")]
              (some 429)
              (some (ErrorResponse.mk "rate_limit_exceeded"
                ("Rate limit exceeded. Try again in "
                  ++ Sprintf_2f (Duration.Seconds64 d.waitTime) ++ " seconds.")))
              true false
          else
            Response.mk
              [("X-RateLimit-Limit", Itoa capacity),
               ("X-RateLimit-Remaining", Itoa (floatToInt64 d.remainingTokens)),
               ("X-RateLimit-Reset", FormatInt (Time.Unix (wall + d.waitTime))),
               ("X-RateLimit-Type", "token-bucket")]
              none none false true) := by
  unfold TokenBucketMiddleware.handler
  rw [h]
  obtain ⟨al, rem, wt, err⟩ := d
  cases err with
  | some e => rfl
  | none =>
    cases al
    · rfl
    · rfl

/-- C11. Fail-open: in the distributed middleware, whenever the backend's
`AllowRequest` returns an error, the handler calls `c.Next()` (the downstream handler
runs), writes no 429 and does not abort, and the headers report full capacity:
`X-RateLimit-Limit` and `X-RateLimit-Remaining` both carry the decimal capacity. -/
theorem redis_middleware_fails_open (capacity : Int) (result : Except String GoValue)
    (wall : Int) (d : RedisDecision)
    (h : RedisTokenBucket.AllowRequest result = GoResult.returned d)
    (herr : d.err ≠ none) :
    TokenBucketMiddleware.handler capacity result wall
      = GoResult.returned (Response.mk
          [("X-RateLimit-Limit", Itoa capacity),
           ("X-RateLimit-Remaining", Itoa capacity),
           ("X-RateLimit-Reset", FormatInt (Time.Unix wall)),
           ("X-RateLimit-Type", "token-bucket")]
          none none false true) := by
  rw [TokenBucketMiddleware.handler_redis_response capacity result wall d h, if_pos herr]

/-- Witness of C11: the store refuses the connection; capacity 60. -/
theorem redis_middleware_fails_open_witness :
    TokenBucketMiddleware.handler 60 (Except.error "connection refused") 1700000000000000000
      = GoResult.returned (Response.mk
          [("X-RateLimit-Limit", Itoa 60),
           ("X-RateLimit-Remaining", Itoa 60),
           ("X-RateLimit-Reset", FormatInt (Time.Unix 1700000000000000000)),
           ("X-RateLimit-Type", "token-bucket")]
          none none false true) :=
  redis_middleware_fails_open 60 (Except.error "connection refused") 1700000000000000000
    (RedisDecision.mk false 0 0 (some ("redis eval error: " ++ "connection refused")))
    rfl (by simp)

/-- C18. Response headers: on every call on which the backend returns a decision
`(allowed, tokens, waitTime)`, allowed or denied, the handler (of the memory middleware,
and of the distributed middleware when the error is nil) sets `X-RateLimit-Limit` to the
decimal capacity, `X-RateLimit-Remaining` to the decimal of `int(tokens)`, which is
`tokens` truncated toward zero whenever that fits an `int`, `X-RateLimit-Reset` to the
Unix seconds of `now + waitTime` and `X-RateLimit-Type` to `"token-bucket"`. -/
theorem middleware_headers (capacity : Int) (limiter : MemoryTokenBucket) (c : Context)
    (created now wall : Int) (result : Except String GoValue) (d : RedisDecision)
    (h : RedisTokenBucket.AllowRequest result = GoResult.returned d) (herr : d.err = none) :
    (MemoryTokenBucketMiddleware.handler capacity limiter c created now wall).2.headers
      = [("X-RateLimit-Limit", Itoa capacity),
         ("X-RateLimit-Remaining", Itoa (floatToInt64
            (limiter.AllowRequest (getIdentifier c) created now).2.remainingTokens)),
         ("X-RateLimit-Reset", FormatInt (Time.Unix
            (wall + (limiter.AllowRequest (getIdentifier c) created now).2.waitTime))),
         ("X-RateLimit-Type", "token-bucket")] ∧
    (∃ r, TokenBucketMiddleware.handler capacity result wall = GoResult.returned r ∧
      r.headers
        = [("X-RateLimit-Limit", Itoa capacity),
           ("X-RateLimit-Remaining", Itoa (floatToInt64 d.remainingTokens)),
           ("X-RateLimit-Reset", FormatInt (Time.Unix (wall + d.waitTime))),
           ("X-RateLimit-Type", "token-bucket")]) ∧
    (∀ tokens : ℚ, -(2 ^ 63) ≤ (if 0 ≤ tokens then ⌊tokens⌋ else ⌈tokens⌉) →
      (if 0 ≤ tokens then ⌊tokens⌋ else ⌈tokens⌉) < 2 ^ 63 →
      floatToInt64 tokens = if 0 ≤ tokens then ⌊tokens⌋ else ⌈tokens⌉) := by
  refine ⟨?_, ?_, floatToInt64_of_inRange⟩
  · rw [MemoryTokenBucketMiddleware.handler_memory_response]
    split_ifs <;> rfl
  · rw [TokenBucketMiddleware.handler_redis_response capacity result wall d h,
      if_neg (not_not.mpr herr)]
    refine ⟨_, rfl, ?_⟩
    split_ifs <;> rfl

/-- Witness of C18: the distributed middleware at capacity 60 receives the decision
`(true, 58.5, 0)` two and a half seconds after the Unix time 1700000000. -/
theorem middleware_headers_witness :
    (∃ r, TokenBucketMiddleware.handler 60
        (Except.ok (GoValue.slice [GoValue.int64 1, GoValue.float64 (117 / 2),
          GoValue.float64 0])) 1700000002500000000 = GoResult.returned r ∧
      r.headers
        = [("X-RateLimit-Limit", Itoa 60),
           ("X-RateLimit-Remaining", Itoa (floatToInt64 (117 / 2))),
           ("X-RateLimit-Reset", FormatInt (Time.Unix (1700000002500000000 + 0))),
           ("X-RateLimit-Type", "token-bucket")]) ∧
    floatToInt64 (117 / 2) = 58 ∧ Itoa 58 = "58" ∧
    FormatInt (Time.Unix (1700000002500000000 + 0)) = "1700000002" := by
  have hw := middleware_headers 60 (NewMemoryTokenBucket 60 1 1)
    (Context.mk (fun _ => none) "10.0.0.1" "/api/v1/auth/login") 0 0 1700000002500000000
    (Except.ok (GoValue.slice [GoValue.int64 1, GoValue.float64 (117 / 2),
      GoValue.float64 0]))
    (RedisDecision.mk true (117 / 2) 0 none)
    (by norm_num [RedisTokenBucket.AllowRequest, RedisTokenBucket.AllowRequestWithTokens,
      floatToInt64])
    rfl
  refine ⟨hw.2.1, ?_, by decide, by decide⟩
  norm_num [floatToInt64]

/-- C19. Denial outcome: in both middlewares, whenever the backend returns
`allowed = false` (with a nil error), the handler answers 429 with the body
`error = "rate_limit_exceeded"`,
`message = "Rate limit exceeded. Try again in <waitTime in seconds, two decimals> seconds."`,
aborts the pipeline and does not call `c.Next()`; whenever the backend returns
`allowed = true` it calls `c.Next()`, writes no status or body and does not abort. -/
theorem middleware_denial_outcome (capacity : Int) (limiter : MemoryTokenBucket)
    (c : Context) (created now wall : Int) (result : Except String GoValue)
    (d : RedisDecision)
    (h : RedisTokenBucket.AllowRequest result = GoResult.returned d) (herr : d.err = none) :
    (((limiter.AllowRequest (getIdentifier c) created now).2.allowed = false →
      (MemoryTokenBucketMiddleware.handler capacity limiter c created now wall).2.status
        = some 429 ∧
      (MemoryTokenBucketMiddleware.handler capacity limiter c created now wall).2.body
        = some (ErrorResponse.mk "rate_limit_exceeded"
            ("Rate limit exceeded. Try again in "
              ++ Sprintf_2f (Duration.Seconds64
                  (limiter.AllowRequest (getIdentifier c) created now).2.waitTime)
              ++ " seconds.")) ∧
      (MemoryTokenBucketMiddleware.handler capacity limiter c created now wall).2.aborted
        = true ∧
      (MemoryTokenBucketMiddleware.handler capacity limiter c created now wall).2.next
        = false) ∧
     ((limiter.AllowRequest (getIdentifier c) created now).2.allowed = true →
      (MemoryTokenBucketMiddleware.handler capacity limiter c created now wall).2.next
        = true ∧
      (MemoryTokenBucketMiddleware.handler capacity limiter c created now wall).2.status
        = none ∧
      (MemoryTokenBucketMiddleware.handler capacity limiter c created now wall).2.body
        = none ∧
      (MemoryTokenBucketMiddleware.handler capacity limiter c created now wall).2.aborted
        = false)) ∧
    (∃ r, TokenBucketMiddleware.handler capacity result wall = GoResult.returned r ∧
      (d.allowed = false →
        r.status = some 429 ∧
        r.body = some (ErrorResponse.mk "rate_limit_exceeded"
            ("Rate limit exceeded. Try again in "
              ++ Sprintf_2f (Duration.Seconds64 d.waitTime) ++ " seconds.")) ∧
        r.aborted = true ∧ r.next = false) ∧
      (d.allowed = true →
        r.next = true ∧ r.status = none ∧ r.body = none ∧ r.aborted = false)) := by
  refine ⟨⟨fun hden => ?_, fun hall => ?_⟩, ?_⟩
  · rw [MemoryTokenBucketMiddleware.handler_memory_response, if_pos hden]
    exact ⟨rfl, rfl, rfl, rfl⟩
  · rw [MemoryTokenBucketMiddleware.handler_memory_response, if_neg (by rw [hall]; decide)]
    exact ⟨rfl, rfl, rfl, rfl⟩
  · rw [TokenBucketMiddleware.handler_redis_response capacity result wall d h,
      if_neg (not_not.mpr herr)]
    refine ⟨_, rfl, fun hden => ?_, fun hall => ?_⟩
    · rw [if_pos hden]
      exact ⟨rfl, rfl, rfl, rfl⟩
    · rw [if_neg (by rw [hall]; decide)]
      exact ⟨rfl, rfl, rfl, rfl⟩

/-- Witness of C19: the memory middleware at capacity 60 and one token per second, on a
drained bucket, denies the request with the wait 1 s and the message
`Try again in 1.00 seconds.`; the distributed middleware at capacity 60, handed the
denial `(false, 0.25, 0.75 s)`, answers `Try again in 0.75 seconds.` -/
theorem middleware_denial_outcome_witness :
    ((MemoryTokenBucketMiddleware.handler 60
        ((NewMemoryTokenBucket 60 1 1).store "ip:10.0.0.1" (tokenBucket.mk 0 0))
        (Context.mk (fun _ => none) "10.0.0.1" "/api/v1/auth/login") 0 0
        1700000000000000000).2.status = some 429 ∧
      (MemoryTokenBucketMiddleware.handler 60
        ((NewMemoryTokenBucket 60 1 1).store "ip:10.0.0.1" (tokenBucket.mk 0 0))
        (Context.mk (fun _ => none) "10.0.0.1" "/api/v1/auth/login") 0 0
        1700000000000000000).2.body
        = some (ErrorResponse.mk "rate_limit_exceeded"
            ("Rate limit exceeded. Try again in "
              ++ Sprintf_2f (Duration.Seconds64 1000000000) ++ " seconds.")) ∧
      (MemoryTokenBucketMiddleware.handler 60
        ((NewMemoryTokenBucket 60 1 1).store "ip:10.0.0.1" (tokenBucket.mk 0 0))
        (Context.mk (fun _ => none) "10.0.0.1" "/api/v1/auth/login") 0 0
        1700000000000000000).2.aborted = true ∧
      (MemoryTokenBucketMiddleware.handler 60
        ((NewMemoryTokenBucket 60 1 1).store "ip:10.0.0.1" (tokenBucket.mk 0 0))
        (Context.mk (fun _ => none) "10.0.0.1" "/api/v1/auth/login") 0 0
        1700000000000000000).2.next = false) ∧
    Sprintf_2f (Duration.Seconds64 1000000000) = "1.00" ∧
    (∃ r, TokenBucketMiddleware.handler 60
        (Except.ok (GoValue.slice [GoValue.int64 0, GoValue.float64 (1 / 4),
          GoValue.float64 (3 / 4)])) 1700000000000000000 = GoResult.returned r ∧
      r.status = some 429 ∧
      r.body = some (ErrorResponse.mk "rate_limit_exceeded"
          ("Rate limit exceeded. Try again in "
            ++ Sprintf_2f (Duration.Seconds64 750000000) ++ " seconds.")) ∧
      r.aborted = true ∧ r.next = false) ∧
    Sprintf_2f (Duration.Seconds64 750000000) = "0.75" := by
  have hid : getIdentifier (Context.mk (fun _ => none) "10.0.0.1" "/api/v1/auth/login")
      = "ip:10.0.0.1" := by decide
  have hd : (((NewMemoryTokenBucket 60 1 1).store "ip:10.0.0.1"
      (tokenBucket.mk 0 0)).AllowRequest
        (getIdentifier (Context.mk (fun _ => none) "10.0.0.1" "/api/v1/auth/login")) 0 0).2
      = Decision.mk false 0 1000000000 := by
    rw [hid]
    norm_num [MemoryTokenBucket.AllowRequest, MemoryTokenBucket.AllowRequestWithTokens,
      MemoryTokenBucket.getOrCreateBucket, MemoryTokenBucket.store, NewMemoryTokenBucket,
      Duration.Seconds_eq, Time.Sub, wrapInt64, floatToInt64, Second]
  have hw := middleware_denial_outcome 60
    ((NewMemoryTokenBucket 60 1 1).store "ip:10.0.0.1" (tokenBucket.mk 0 0))
    (Context.mk (fun _ => none) "10.0.0.1" "/api/v1/auth/login") 0 0 1700000000000000000
    (Except.ok (GoValue.slice [GoValue.int64 0, GoValue.float64 (1 / 4),
      GoValue.float64 (3 / 4)]))
    (RedisDecision.mk false (1 / 4) 750000000 none)
    (by norm_num [RedisTokenBucket.AllowRequest, RedisTokenBucket.AllowRequestWithTokens,
      floatToInt64, Second])
    rfl
  obtain ⟨⟨hmem, _⟩, r, hr, hden, _⟩ := hw
  have hm := hmem (by rw [hd])
  rw [hd] at hm
  refine ⟨hm, ?_, ⟨r, hr, hden rfl⟩, ?_⟩
  · have h2 : |(1 : ℚ)| * 100 = 100 := by
      rw [abs_of_pos (by norm_num)]
      norm_num
    have h3 : roundHalfEven 100 = 100 := by
      norm_num [roundHalfEven]
    have h4 : ¬ ((1 : ℚ) < 0) := by norm_num
    simp only [Sprintf_2f, Seconds64_1s, h2, h3, if_neg h4]
    decide
  · have h2 : |(3 / 4 : ℚ)| * 100 = 75 := by
      rw [abs_of_pos (by norm_num)]
      norm_num
    have h3 : roundHalfEven 75 = 75 := by
      norm_num [roundHalfEven]
    have h4 : ¬ ((3 / 4 : ℚ) < 0) := by norm_num
    simp only [Sprintf_2f, Seconds64_750ms, h2, h3, if_neg h4]
    decide

/-! ## Eviction, inspection and reset -/

/-- `AllowRequestWithTokens` on an identifier that has a bucket, in closed form. -/
theorem MemoryTokenBucket.AllowRequestWithTokens_of_some (mtb : MemoryTokenBucket)
    (identifier : String) (tokensNeeded created now : Int) (tokens : ℚ) (lastRefill : Int)
    (hb : mtb.buckets identifier = some (tokenBucket.mk tokens lastRefill)) :
    mtb.AllowRequestWithTokens identifier tokensNeeded created now
      = if min (mtb.capacity : ℚ)
            (tokens + ((now - lastRefill : Int) : ℚ) / 1000000000 * mtb.refillRate)
            ≥ (tokensNeeded : ℚ)
        then (mtb.store identifier (tokenBucket.mk
            (min (mtb.capacity : ℚ)
              (tokens + ((now - lastRefill : Int) : ℚ) / 1000000000 * mtb.refillRate)
              - (tokensNeeded : ℚ)) now),
          Decision.mk true
            (min (mtb.capacity : ℚ)
              (tokens + ((now - lastRefill : Int) : ℚ) / 1000000000 * mtb.refillRate)
              - (tokensNeeded : ℚ)) 0)
        else (mtb.store identifier (tokenBucket.mk
            (min (mtb.capacity : ℚ)
              (tokens + ((now - lastRefill : Int) : ℚ) / 1000000000 * mtb.refillRate)) now),
          Decision.mk false
            (min (mtb.capacity : ℚ)
              (tokens + ((now - lastRefill : Int) : ℚ) / 1000000000 * mtb.refillRate))
            (wrapInt64 (floatToInt64 (((tokensNeeded : ℚ) - min (mtb.capacity : ℚ)
              (tokens + ((now - lastRefill : Int) : ℚ) / 1000000000 * mtb.refillRate))
                / mtb.refillRate) * Second))) := by
  simp only [MemoryTokenBucket.AllowRequestWithTokens,
    MemoryTokenBucket.getOrCreateBucket_of_some mtb identifier created _ hb,
    Duration.Seconds_eq, Time.Sub]

/-- `GetBucketState` on an identifier that has a bucket, in closed form. -/
theorem MemoryTokenBucket.GetBucketState_of_some (mtb : MemoryTokenBucket)
    (identifier : String) (created now : Int) (tokens : ℚ) (lastRefill : Int)
    (hb : mtb.buckets identifier = some (tokenBucket.mk tokens lastRefill)) :
    mtb.GetBucketState identifier created now
      = (mtb.store identifier (tokenBucket.mk
          (min (mtb.capacity : ℚ)
            (tokens + ((now - lastRefill : Int) : ℚ) / 1000000000 * mtb.refillRate)) now),
        min (mtb.capacity : ℚ)
          (tokens + ((now - lastRefill : Int) : ℚ) / 1000000000 * mtb.refillRate),
        now) := by
  simp only [MemoryTokenBucket.GetBucketState,
    MemoryTokenBucket.getOrCreateBucket_of_some mtb identifier created _ hb,
    Duration.Seconds_eq, Time.Sub]

/-- Writing twice into the same entry keeps the second write only. -/
theorem MemoryTokenBucket.store_store (mtb : MemoryTokenBucket) (identifier : String)
    (a b : tokenBucket) :
    (mtb.store identifier a).store identifier b = mtb.store identifier b := by
  simp [MemoryTokenBucket.store]

/-- Refilling in two steps is refilling in one step when the second step adds a
non-negative amount. -/
theorem min_refill_twice (capacity x a b : ℚ) (hb : 0 ≤ b) :
    min capacity (min capacity (x + a) + b) = min capacity (x + (a + b)) := by
  rcases le_total capacity (x + a) with h | h
  · rw [min_eq_left h, min_eq_left (by linarith), min_eq_left (by linarith)]
  · rw [min_eq_right h, add_assoc]

/-- C13. Idle eviction (memory backend): after one sweep run at time `sweep`, every
bucket whose `lastRefill` is more than 10 minutes before `sweep` is absent from the map,
and the next Allow call on such an identifier works on a newly created bucket at full
capacity: with `cost <= capacity` it is allowed, returns `remaining = capacity - cost`
and leaves `capacity - cost` tokens, whatever the evicted bucket held. The refill rate
is not negative, as `capacity / 60` is for every capacity that admits a cost of one
token, and the call reads its clock after the bucket was created. -/
theorem memory_eviction_recreates_full (mtb : MemoryTokenBucket) (identifier : String)
    (b : tokenBucket) (sweep cost created now : Int)
    (hb : mtb.buckets identifier = some b)
    (hidle : sweep - b.lastRefill > 10 * Minute)
    (hrate : 0 ≤ mtb.refillRate) (hcost : cost ≤ mtb.capacity) (hclock : created ≤ now) :
    (mtb.cleanup sweep).buckets identifier = none ∧
    ((mtb.cleanup sweep).AllowRequestWithTokens identifier cost created now).2
      = Decision.mk true ((mtb.capacity : ℚ) - (cost : ℚ)) 0 ∧
    ((mtb.cleanup sweep).AllowRequestWithTokens identifier cost created now).1.buckets
        identifier
      = some (tokenBucket.mk ((mtb.capacity : ℚ) - (cost : ℚ)) now) := by
  have hnone : (mtb.cleanup sweep).buckets identifier = none := by
    simp only [MemoryTokenBucket.cleanup, hb, Time.Sub]
    rw [if_pos hidle]
  have hq : (cost : ℚ) ≤ (mtb.capacity : ℚ) := by exact_mod_cast hcost
  have he : (0 : ℚ) ≤ ((now - created : Int) : ℚ) := by
    exact_mod_cast sub_nonneg.mpr hclock
  have hadd : (0 : ℚ) ≤ ((now - created : Int) : ℚ) / 1000000000 * mtb.refillRate := by
    positivity
  have hmin : min (mtb.capacity : ℚ)
      ((mtb.capacity : ℚ) + ((now - created : Int) : ℚ) / 1000000000 * mtb.refillRate)
      = (mtb.capacity : ℚ) := min_eq_left (by linarith)
  have hcfg : (mtb.cleanup sweep).capacity = mtb.capacity ∧
      (mtb.cleanup sweep).refillRate = mtb.refillRate := ⟨rfl, rfl⟩
  refine ⟨hnone, ?_, ?_⟩
  · simp only [MemoryTokenBucket.AllowRequestWithTokens,
      MemoryTokenBucket.getOrCreateBucket_of_none _ identifier created hnone,
      Duration.Seconds_eq, Time.Sub, hcfg.1, hcfg.2, hmin]
    rw [if_pos hq]
  · simp only [MemoryTokenBucket.AllowRequestWithTokens,
      MemoryTokenBucket.getOrCreateBucket_of_none _ identifier created hnone,
      Duration.Seconds_eq, Time.Sub, hcfg.1, hcfg.2, hmin]
    rw [if_pos hq]
    exact MemoryTokenBucket.store_buckets_same _ _ _

/-- Witness of C13: capacity 5 at one token per second, a drained bucket last
refilled at 0 s, the sweep at 601 s and a call of cost 5 one second after creation. -/
theorem memory_eviction_recreates_full_witness :
    (((NewMemoryTokenBucket 5 1 1).store "ip:10.0.0.1"
        (tokenBucket.mk 0 0)).cleanup 601000000000).buckets "ip:10.0.0.1" = none ∧
    ((((NewMemoryTokenBucket 5 1 1).store "ip:10.0.0.1"
        (tokenBucket.mk 0 0)).cleanup 601000000000).AllowRequestWithTokens "ip:10.0.0.1" 5
          601000000000 602000000000).2
      = Decision.mk true (((5 : Int) : ℚ) - ((5 : Int) : ℚ)) 0 ∧
    ((((NewMemoryTokenBucket 5 1 1).store "ip:10.0.0.1"
        (tokenBucket.mk 0 0)).cleanup 601000000000).AllowRequestWithTokens "ip:10.0.0.1" 5
          601000000000 602000000000).1.buckets "ip:10.0.0.1"
      = some (tokenBucket.mk (((5 : Int) : ℚ) - ((5 : Int) : ℚ)) 602000000000) :=
  memory_eviction_recreates_full
    ((NewMemoryTokenBucket 5 1 1).store "ip:10.0.0.1" (tokenBucket.mk 0 0))
    "ip:10.0.0.1" (tokenBucket.mk 0 0) 601000000000 5 601000000000 602000000000
    (by simp [MemoryTokenBucket.store]) (by decide)
    (by norm_num [MemoryTokenBucket.store, NewMemoryTokenBucket]) (by decide) (by decide)

/-- In exact arithmetic an inspection changes nothing for a later call: `GetBucketState`
at time `t1` returns `min(capacity, tokens + elapsed * refillRate)` and subtracts no
cost, and for every later Allow call (`t2 >= t1`, `refillRate >= 0`) the decision and
the resulting limiter are the same as if `GetBucketState` had not been called. -/
theorem MemoryTokenBucket.inspect_then_allow_exact (mtb : MemoryTokenBucket)
    (identifier : String)
    (cost created1 created2 t1 t2 : Int) (tokens : ℚ) (lastRefill : Int)
    (hb : mtb.buckets identifier = some (tokenBucket.mk tokens lastRefill))
    (_h1 : lastRefill ≤ t1) (h2 : t1 ≤ t2) (hrate : 0 ≤ mtb.refillRate)
    (_htok : tokens ≤ (mtb.capacity : ℚ)) :
    (mtb.GetBucketState identifier created1 t1).2.1
      = min (mtb.capacity : ℚ)
          (tokens + ((t1 - lastRefill : Int) : ℚ) / 1000000000 * mtb.refillRate) ∧
    ((mtb.GetBucketState identifier created1 t1).1.AllowRequestWithTokens identifier cost
        created2 t2).2
      = (mtb.AllowRequestWithTokens identifier cost created2 t2).2 ∧
    ((mtb.GetBucketState identifier created1 t1).1.AllowRequestWithTokens identifier cost
        created2 t2).1
      = (mtb.AllowRequestWithTokens identifier cost created2 t2).1 := by
  have hg := mtb.GetBucketState_of_some identifier created1 t1 tokens lastRefill hb
  have hb1 : (mtb.GetBucketState identifier created1 t1).1.buckets identifier
      = some (tokenBucket.mk
          (min (mtb.capacity : ℚ)
            (tokens + ((t1 - lastRefill : Int) : ℚ) / 1000000000 * mtb.refillRate)) t1) := by
    rw [hg]
    exact MemoryTokenBucket.store_buckets_same _ _ _
  have hcap : (mtb.GetBucketState identifier created1 t1).1.capacity = mtb.capacity := by
    rw [hg]
    rfl
  have hrr : (mtb.GetBucketState identifier created1 t1).1.refillRate = mtb.refillRate := by
    rw [hg]
    rfl
  have hstep : (0 : ℚ) ≤ ((t2 - t1 : Int) : ℚ) / 1000000000 * mtb.refillRate := by
    have : (0 : ℚ) ≤ ((t2 - t1 : Int) : ℚ) := by exact_mod_cast sub_nonneg.mpr h2
    positivity
  have hsplit : ((t1 - lastRefill : Int) : ℚ) / 1000000000 * mtb.refillRate
      + ((t2 - t1 : Int) : ℚ) / 1000000000 * mtb.refillRate
      = ((t2 - lastRefill : Int) : ℚ) / 1000000000 * mtb.refillRate := by
    push_cast
    ring
  have hmin := min_refill_twice (mtb.capacity : ℚ) tokens
    (((t1 - lastRefill : Int) : ℚ) / 1000000000 * mtb.refillRate)
    (((t2 - t1 : Int) : ℚ) / 1000000000 * mtb.refillRate) hstep
  rw [hsplit] at hmin
  have hall := (mtb.GetBucketState identifier created1 t1).1.AllowRequestWithTokens_of_some
    identifier cost created2 t2 _ _ hb1
  rw [hcap, hrr, hmin] at hall
  have hdirect := mtb.AllowRequestWithTokens_of_some identifier cost created2 t2 tokens
    lastRefill hb
  refine ⟨by rw [hg], ?_, ?_⟩
  · rw [hall, hdirect]
    split_ifs <;> rfl
  · rw [hall, hdirect, hg]
    split_ifs <;> exact MemoryTokenBucket.store_store _ _ _ _

/-- `GetBucketState` in `float64` arithmetic on an identifier that has a bucket, in
closed form. -/
theorem MemoryTokenBucket.GetBucketState64_of_some (mtb : MemoryTokenBucket)
    (identifier : String) (created now : Int) (tokens : ℚ) (lastRefill : Int)
    (hb : mtb.buckets identifier = some (tokenBucket.mk tokens lastRefill)) :
    mtb.GetBucketState64 identifier created now
      = (mtb.store identifier (tokenBucket.mk
          (min (round64 (mtb.capacity : ℚ))
            (round64 (tokens
              + round64 (Duration.Seconds64 (now - lastRefill) * mtb.refillRate)))) now),
        min (round64 (mtb.capacity : ℚ))
          (round64 (tokens
            + round64 (Duration.Seconds64 (now - lastRefill) * mtb.refillRate))),
        now) := by
  simp only [MemoryTokenBucket.GetBucketState64, MemoryTokenBucket.getOrCreateBucket64, hb,
    Time.Sub]

/-- `AllowRequestWithTokens` in `float64` arithmetic on an identifier that has a bucket,
in closed form. -/
theorem MemoryTokenBucket.AllowRequestWithTokens64_of_some (mtb : MemoryTokenBucket)
    (identifier : String) (tokensNeeded created now : Int) (tokens : ℚ) (lastRefill : Int)
    (hb : mtb.buckets identifier = some (tokenBucket.mk tokens lastRefill)) :
    mtb.AllowRequestWithTokens64 identifier tokensNeeded created now
      = if min (round64 (mtb.capacity : ℚ))
            (round64 (tokens
              + round64 (Duration.Seconds64 (now - lastRefill) * mtb.refillRate)))
            ≥ round64 (tokensNeeded : ℚ)
        then (mtb.store identifier (tokenBucket.mk
            (round64 (min (round64 (mtb.capacity : ℚ))
              (round64 (tokens
                + round64 (Duration.Seconds64 (now - lastRefill) * mtb.refillRate)))
              - round64 (tokensNeeded : ℚ))) now),
          Decision.mk true
            (round64 (min (round64 (mtb.capacity : ℚ))
              (round64 (tokens
                + round64 (Duration.Seconds64 (now - lastRefill) * mtb.refillRate)))
              - round64 (tokensNeeded : ℚ))) 0)
        else (mtb.store identifier (tokenBucket.mk
            (min (round64 (mtb.capacity : ℚ))
              (round64 (tokens
                + round64 (Duration.Seconds64 (now - lastRefill) * mtb.refillRate)))) now),
          Decision.mk false
            (min (round64 (mtb.capacity : ℚ))
              (round64 (tokens
                + round64 (Duration.Seconds64 (now - lastRefill) * mtb.refillRate))))
            (wrapInt64 (floatToInt64 (round64 (round64 (round64 (tokensNeeded : ℚ)
              - min (round64 (mtb.capacity : ℚ))
                (round64 (tokens
                  + round64 (Duration.Seconds64 (now - lastRefill) * mtb.refillRate))))
                / mtb.refillRate)) * Second))) := by
  simp only [MemoryTokenBucket.AllowRequestWithTokens64,
    MemoryTokenBucket.getOrCreateBucket64, hb, Time.Sub]

/-- C14 (counterexample). The limiter of the middleware at 30 requests per minute
(capacity 30, half a token per second), every `float64` operation rounded. A first call
of cost 30 at 0 s leaves the bucket `(0 tokens, 0 s)`. A call of cost 1 at 2 s refills
`2 * 0.5 = 1` token and is allowed with 0 remaining. When `GetBucketState` runs at 3 ms
in between, it stores the rounded refill of 3 ms, the call at 2 s adds the rounded refill
of 1.997 s, the sum is rounded to `1 - 2^(-53) = 0.9999999999999999`, and the call is
denied with that remaining value and the wait 0. -/
theorem memory_inspect_changes_rounded_decision :
    ((MemoryTokenBucketMiddleware 30).2.AllowRequestWithTokens64 "ip:10.0.0.1" 30 0
        0).1.buckets "ip:10.0.0.1" = some (tokenBucket.mk 0 0) ∧
    (((MemoryTokenBucketMiddleware 30).2.store "ip:10.0.0.1"
        (tokenBucket.mk 0 0)).AllowRequestWithTokens64 "ip:10.0.0.1" 1 0 2000000000).2
      = Decision.mk true 0 0 ∧
    (((MemoryTokenBucketMiddleware 30).2.store "ip:10.0.0.1"
        (tokenBucket.mk 0 0)).GetBucketState64 "ip:10.0.0.1" 0 3000000).2
      = (3458764513820541 / 2305843009213693952, 3000000) ∧
    ((((MemoryTokenBucketMiddleware 30).2.store "ip:10.0.0.1"
        (tokenBucket.mk 0 0)).GetBucketState64 "ip:10.0.0.1" 0
          3000000).1.AllowRequestWithTokens64 "ip:10.0.0.1" 1 0 2000000000).2
      = Decision.mk false (9007199254740991 / 9007199254740992) 0 := by
  refine ⟨?_, ?_, ?_, ?_⟩
  · norm_num [MemoryTokenBucketMiddleware, MemoryTokenBucket.AllowRequestWithTokens64,
      MemoryTokenBucket.getOrCreateBucket64, MemoryTokenBucket.store, NewMemoryTokenBucket,
      Time.Sub, Seconds64_zero, round64_zero, round64_thirty]
  · norm_num [MemoryTokenBucketMiddleware, MemoryTokenBucket.AllowRequestWithTokens64,
      MemoryTokenBucket.getOrCreateBucket64, MemoryTokenBucket.store, NewMemoryTokenBucket,
      Time.Sub, Seconds64_2s, round64_zero, round64_one, round64_thirty]
  · norm_num [MemoryTokenBucketMiddleware, MemoryTokenBucket.GetBucketState64,
      MemoryTokenBucket.getOrCreateBucket64, MemoryTokenBucket.store, NewMemoryTokenBucket,
      Time.Sub, Seconds64_3ms, round64_zero, round64_thirty, round64_half_3ms]
  · norm_num [MemoryTokenBucketMiddleware, MemoryTokenBucket.GetBucketState64,
      MemoryTokenBucket.AllowRequestWithTokens64,
      MemoryTokenBucket.getOrCreateBucket64, MemoryTokenBucket.store, NewMemoryTokenBucket,
      Time.Sub, Seconds64_3ms, Seconds64_1997ms, round64_zero, round64_one, round64_thirty,
      round64_half_3ms, round64_half_1997ms, round64_refill_sum, round64_ulp53,
      round64_ulp52, wrapInt64, floatToInt64, Second]

/-- C14 (amended). Inspect does not consume (memory backend, every `float64` operation
rounded): `GetBucketState` at time `t1` returns
`min(capacity, tokens + elapsed * refillRate)`, subtracts no cost and stores that value
stamped `t1`; a later Allow call at `t2` refills from the stored value over `t2 - t1`
only, and whenever that refill in two steps gives the same `float64` as the refill in
one step over `t2 - lastRefill`, its decision (allowed, remaining, waitTime) and the
resulting limiter, hence the bucket, are the same as if `GetBucketState` had not been
called. -/
theorem memory_inspect_refills_only (mtb : MemoryTokenBucket) (identifier : String)
    (cost created1 created2 t1 t2 : Int) (tokens : ℚ) (lastRefill : Int)
    (hb : mtb.buckets identifier = some (tokenBucket.mk tokens lastRefill)) :
    (mtb.GetBucketState64 identifier created1 t1).2
      = (min (round64 (mtb.capacity : ℚ))
          (round64 (tokens
            + round64 (Duration.Seconds64 (t1 - lastRefill) * mtb.refillRate))), t1) ∧
    (mtb.GetBucketState64 identifier created1 t1).1.buckets identifier
      = some (tokenBucket.mk
          (min (round64 (mtb.capacity : ℚ))
            (round64 (tokens
              + round64 (Duration.Seconds64 (t1 - lastRefill) * mtb.refillRate)))) t1) ∧
    (min (round64 (mtb.capacity : ℚ))
        (round64 (min (round64 (mtb.capacity : ℚ))
            (round64 (tokens
              + round64 (Duration.Seconds64 (t1 - lastRefill) * mtb.refillRate)))
          + round64 (Duration.Seconds64 (t2 - t1) * mtb.refillRate)))
      = min (round64 (mtb.capacity : ℚ))
          (round64 (tokens
            + round64 (Duration.Seconds64 (t2 - lastRefill) * mtb.refillRate))) →
      ((mtb.GetBucketState64 identifier created1 t1).1.AllowRequestWithTokens64 identifier
          cost created2 t2).2
        = (mtb.AllowRequestWithTokens64 identifier cost created2 t2).2 ∧
      ((mtb.GetBucketState64 identifier created1 t1).1.AllowRequestWithTokens64 identifier
          cost created2 t2).1
        = (mtb.AllowRequestWithTokens64 identifier cost created2 t2).1) := by
  have hg := mtb.GetBucketState64_of_some identifier created1 t1 tokens lastRefill hb
  have hb1 : (mtb.GetBucketState64 identifier created1 t1).1.buckets identifier
      = some (tokenBucket.mk
          (min (round64 (mtb.capacity : ℚ))
            (round64 (tokens
              + round64 (Duration.Seconds64 (t1 - lastRefill) * mtb.refillRate)))) t1) := by
    rw [hg]
    exact MemoryTokenBucket.store_buckets_same _ _ _
  have hcap : (mtb.GetBucketState64 identifier created1 t1).1.capacity = mtb.capacity := by
    rw [hg]
    rfl
  have hrr : (mtb.GetBucketState64 identifier created1 t1).1.refillRate = mtb.refillRate := by
    rw [hg]
    rfl
  refine ⟨by rw [hg], hb1, fun hsame => ?_⟩
  have hall := (mtb.GetBucketState64 identifier created1 t1).1.AllowRequestWithTokens64_of_some
    identifier cost created2 t2 _ _ hb1
  rw [hcap, hrr, hsame] at hall
  have hdirect := mtb.AllowRequestWithTokens64_of_some identifier cost created2 t2 tokens
    lastRefill hb
  refine ⟨?_, ?_⟩
  · rw [hall, hdirect]
    split_ifs <;> rfl
  · rw [hall, hdirect, hg]
    split_ifs <;> exact MemoryTokenBucket.store_store _ _ _ _

/-- Witness of C14 (amended): the limiter of the middleware at 30 requests per minute
(capacity 30, half a token per second), a drained bucket stamped at 0 s, inspected at
2 s, then a call of cost 1 at 4 s: both refills give 2 tokens and the call is allowed
with 1 token remaining, inspected or not. -/
theorem memory_inspect_refills_only_witness :
    ((((MemoryTokenBucketMiddleware 30).2.store "ip:10.0.0.1"
        (tokenBucket.mk 0 0)).GetBucketState64 "ip:10.0.0.1" 0
          2000000000).1.AllowRequestWithTokens64 "ip:10.0.0.1" 1 0 4000000000).2
      = (((MemoryTokenBucketMiddleware 30).2.store "ip:10.0.0.1"
        (tokenBucket.mk 0 0)).AllowRequestWithTokens64 "ip:10.0.0.1" 1 0 4000000000).2 ∧
    (((MemoryTokenBucketMiddleware 30).2.store "ip:10.0.0.1"
        (tokenBucket.mk 0 0)).AllowRequestWithTokens64 "ip:10.0.0.1" 1 0 4000000000).2
      = Decision.mk true 1 0 := by
  refine ⟨((memory_inspect_refills_only
    ((MemoryTokenBucketMiddleware 30).2.store "ip:10.0.0.1" (tokenBucket.mk 0 0))
    "ip:10.0.0.1" 1 0 0 2000000000 4000000000 0 0
    (by simp [MemoryTokenBucket.store])).2.2 ?_).1, ?_⟩
  · norm_num [MemoryTokenBucketMiddleware, MemoryTokenBucket.store, NewMemoryTokenBucket,
      Seconds64_2s, Seconds64_4s, round64_zero, round64_one, round64_two, round64_thirty]
  · norm_num [MemoryTokenBucketMiddleware, MemoryTokenBucket.AllowRequestWithTokens64,
      MemoryTokenBucket.getOrCreateBucket64, MemoryTokenBucket.store, NewMemoryTokenBucket,
      Time.Sub, Seconds64_4s, round64_zero, round64_one, round64_two, round64_thirty]

/-- On a key without a record the script starts from `capacity` tokens and a zero
elapsed time: with `tokens_needed <= capacity` it answers allowed with
`capacity - tokens_needed` remaining. -/
theorem luaScript_of_absent (store : RedisStore) (key : String)
    (capacity refill_rate tokens_needed now : ℚ)
    (hnone : store key = none) (hcost : tokens_needed ≤ capacity) :
    (luaScript store key capacity refill_rate tokens_needed now).2
      = LuaReply.mk 1 (capacity - tokens_needed) 0 := by
  simp only [luaScript, HMGET, hnone, tonumber, Option.getD_none, sub_self, zero_mul,
    add_zero, min_self]
  rw [if_pos hcost]

/-- After `Reset(identifier)` the record of that identifier is absent from the store
whatever it held before, every other key, in particular the record of every other
identifier, is unchanged, and the next script run on that identifier starts from
`tokens = capacity`: with `cost <= capacity` the script answers allowed with
`capacity - cost` remaining. -/
theorem RedisTokenBucket.Reset_then_script (tb : RedisTokenBucket) (store : RedisStore)
    (identifier : String) (cost now : Int) (hcost : cost ≤ tb.capacity) :
    (tb.Reset store identifier).2 = none ∧
    (tb.Reset store identifier).1 (tb.key identifier) = none ∧
    (∀ key, key ≠ tb.key identifier → (tb.Reset store identifier).1 key = store key) ∧
    (∀ other, other ≠ identifier →
      (tb.Reset store identifier).1 (tb.key other) = store (tb.key other)) ∧
    (tb.Eval (tb.Reset store identifier).1 identifier cost now).2
      = LuaReply.mk 1 ((tb.capacity : ℚ) - (cost : ℚ)) 0 := by
  have hq : (cost : ℚ) ≤ (tb.capacity : ℚ) := by exact_mod_cast hcost
  have habs : (tb.Reset store identifier).1 (tb.key identifier) = none := by
    simp [RedisTokenBucket.Reset, DEL]
  have hother : ∀ key, key ≠ tb.key identifier →
      (tb.Reset store identifier).1 key = store key := by
    intro key hk
    simp [RedisTokenBucket.Reset, DEL, Function.update_noteq hk]
  refine ⟨rfl, habs, hother, fun other ho => hother _ ?_,
    luaScript_of_absent _ _ _ _ _ _ habs hq⟩
  intro hk
  exact ho (string_append_left_cancel _ _ _ hk)

/-- C15 (evaluation at the failing input). Capacity 60, one token per second; the record
of `ip:10.0.0.1` holds 3 tokens, the record of `ip:10.0.0.2` holds 7. `Reset` of the
first returns the nil error, leaves its key absent and the other record unchanged, and
the script of the next call of cost 1 starts from 60 tokens and answers `{1, 59, 0}`, as
claimed. The store hands that answer back as three integers, the assertion
`resultSlice[1].(float64)` fails, and the next Allow panics where the claim says it is
allowed with `remaining = 59`. -/
theorem redis_reset_then_allow_panics :
    ((NewRedisTokenBucket 60 1 1).Reset
        (fun key => if key = "rate_limit:bucket:ip:10.0.0.1" then
            some (RedisRecord.mk (.number 3) (.number 100) (some 300))
          else if key = "rate_limit:bucket:ip:10.0.0.2" then
            some (RedisRecord.mk (.number 7) (.number 100) (some 300))
          else none) "ip:10.0.0.1").2 = none ∧
    ((NewRedisTokenBucket 60 1 1).Reset
        (fun key => if key = "rate_limit:bucket:ip:10.0.0.1" then
            some (RedisRecord.mk (.number 3) (.number 100) (some 300))
          else if key = "rate_limit:bucket:ip:10.0.0.2" then
            some (RedisRecord.mk (.number 7) (.number 100) (some 300))
          else none) "ip:10.0.0.1").1 "rate_limit:bucket:ip:10.0.0.1" = none ∧
    ((NewRedisTokenBucket 60 1 1).Reset
        (fun key => if key = "rate_limit:bucket:ip:10.0.0.1" then
            some (RedisRecord.mk (.number 3) (.number 100) (some 300))
          else if key = "rate_limit:bucket:ip:10.0.0.2" then
            some (RedisRecord.mk (.number 7) (.number 100) (some 300))
          else none) "ip:10.0.0.1").1 "rate_limit:bucket:ip:10.0.0.2"
      = some (RedisRecord.mk (.number 7) (.number 100) (some 300)) ∧
    ((NewRedisTokenBucket 60 1 1).Eval
        ((NewRedisTokenBucket 60 1 1).Reset
          (fun key => if key = "rate_limit:bucket:ip:10.0.0.1" then
              some (RedisRecord.mk (.number 3) (.number 100) (some 300))
            else if key = "rate_limit:bucket:ip:10.0.0.2" then
              some (RedisRecord.mk (.number 7) (.number 100) (some 300))
            else none) "ip:10.0.0.1").1 "ip:10.0.0.1" 1 200).2 = LuaReply.mk 1 59 0 ∧
    (LuaReply.mk 1 59 0).toGo
      = GoValue.slice [GoValue.int64 1, GoValue.int64 59, GoValue.int64 0] ∧
    RedisTokenBucket.AllowRequestWithTokens
        (.ok ((NewRedisTokenBucket 60 1 1).Eval
          ((NewRedisTokenBucket 60 1 1).Reset
            (fun key => if key = "rate_limit:bucket:ip:10.0.0.1" then
                some (RedisRecord.mk (.number 3) (.number 100) (some 300))
              else if key = "rate_limit:bucket:ip:10.0.0.2" then
                some (RedisRecord.mk (.number 7) (.number 100) (some 300))
              else none) "ip:10.0.0.1").1 "ip:10.0.0.1" 1 200).2.toGo)
      = GoResult.panicked := by
  have hkey : (NewRedisTokenBucket 60 1 1).key "ip:10.0.0.1"
      = "rate_limit:bucket:ip:10.0.0.1" := by decide
  have h := RedisTokenBucket.Reset_then_script (NewRedisTokenBucket 60 1 1)
    (fun key => if key = "rate_limit:bucket:ip:10.0.0.1" then
        some (RedisRecord.mk (.number 3) (.number 100) (some 300))
      else if key = "rate_limit:bucket:ip:10.0.0.2" then
        some (RedisRecord.mk (.number 7) (.number 100) (some 300))
      else none) "ip:10.0.0.1" 1 200 (by decide)
  obtain ⟨h1, h2, h3, _, h5⟩ := h
  rw [hkey] at h2
  have h5q : ((NewRedisTokenBucket 60 1 1).capacity : ℚ) - ((1 : Int) : ℚ) = 59 := by
    norm_num [NewRedisTokenBucket]
  rw [h5q] at h5
  refine ⟨h1, h2, ?_, h5, ?_, RedisTokenBucket.AllowRequestWithTokens_toGo _⟩
  · rw [h3 _ (by rw [hkey]; decide)]
    simp
  · norm_num [LuaReply.toGo, floatToInt64]

/-! ## Unparsable stored fields -/

/-- C12 (counterexample). Capacity 10, one token per second; the record of the
identifier holds `tokens = "abc"` (not a number) and `last_refill = 100`. A call of
cost 1 at `now = 100` is not answered with an error: the script takes `capacity` for
the unparsable field, answers `{1, 9, 0}` and stores 9 tokens. The store hands the
answer back as three integers, on which `AllowRequestWithTokens` does not return at
all, so it returns no error either. -/
theorem redis_malformed_state_no_error :
    ((NewRedisTokenBucket 10 1 1).Eval
        (Function.update (fun _ => none) "rate_limit:bucket:ip:10.0.0.1"
          (some (RedisRecord.mk (.text "abc") (.number 100) (some 300))))
        "ip:10.0.0.1" 1 100).2 = LuaReply.mk 1 9 0 ∧
    ((NewRedisTokenBucket 10 1 1).Eval
        (Function.update (fun _ => none) "rate_limit:bucket:ip:10.0.0.1"
          (some (RedisRecord.mk (.text "abc") (.number 100) (some 300))))
        "ip:10.0.0.1" 1 100).1 "rate_limit:bucket:ip:10.0.0.1"
      = some (RedisRecord.mk (.number 9) (.number 100) (some 300)) ∧
    (LuaReply.mk 1 9 0).toGo
      = GoValue.slice [GoValue.int64 1, GoValue.int64 9, GoValue.int64 0] ∧
    RedisTokenBucket.AllowRequestWithTokens
        (.ok ((NewRedisTokenBucket 10 1 1).Eval
          (Function.update (fun _ => none) "rate_limit:bucket:ip:10.0.0.1"
            (some (RedisRecord.mk (.text "abc") (.number 100) (some 300))))
          "ip:10.0.0.1" 1 100).2.toGo)
      = GoResult.panicked ∧
    (∀ d : RedisDecision, d.err ≠ none →
      RedisTokenBucket.AllowRequestWithTokens
        (.ok ((NewRedisTokenBucket 10 1 1).Eval
          (Function.update (fun _ => none) "rate_limit:bucket:ip:10.0.0.1"
            (some (RedisRecord.mk (.text "abc") (.number 100) (some 300))))
          "ip:10.0.0.1" 1 100).2.toGo)
      ≠ GoResult.returned d) := by
  have hkey : (NewRedisTokenBucket 10 1 1).key "ip:10.0.0.1"
      = "rate_limit:bucket:ip:10.0.0.1" := by decide
  have hreply : ((NewRedisTokenBucket 10 1 1).Eval
        (Function.update (fun _ => none) "rate_limit:bucket:ip:10.0.0.1"
          (some (RedisRecord.mk (.text "abc") (.number 100) (some 300))))
        "ip:10.0.0.1" 1 100).2 = LuaReply.mk 1 9 0 := by
    simp only [RedisTokenBucket.Eval, hkey]
    norm_num [NewRedisTokenBucket, luaScript, HMGET, HMSET, EXPIRE, tonumber]
  refine ⟨hreply, ?_, ?_, RedisTokenBucket.AllowRequestWithTokens_toGo _, fun d _ => ?_⟩
  · simp only [RedisTokenBucket.Eval, hkey]
    norm_num [NewRedisTokenBucket, luaScript, HMGET, HMSET, EXPIRE, tonumber]
  · norm_num [LuaReply.toGo, floatToInt64]
  · rw [RedisTokenBucket.AllowRequestWithTokens_toGo]
    exact fun h => GoResult.noConfusion h

/-- C12 (amended). MalformedState: when the stored record of the key has a `tokens` or
`last_refill` field that is present but not parsable as a number, the script reports
nothing and computes its answer and the new record from substituted values, `capacity`
for `tokens` and `now` for `last_refill`, exactly as if the record held those
numbers. -/
theorem redis_malformed_state_substitutes (store : RedisStore) (key s : String)
    (field : HashField) (ttl : Option Int)
    (capacity refill_rate tokens_needed now : ℚ) :
    (store key = some (RedisRecord.mk (.text s) field ttl) →
      luaScript store key capacity refill_rate tokens_needed now
        = luaScript (Function.update store key
            (some (RedisRecord.mk (.number capacity) field ttl)))
          key capacity refill_rate tokens_needed now) ∧
    (store key = some (RedisRecord.mk field (.text s) ttl) →
      luaScript store key capacity refill_rate tokens_needed now
        = luaScript (Function.update store key
            (some (RedisRecord.mk field (.number now) ttl)))
          key capacity refill_rate tokens_needed now) := by
  refine ⟨fun h => ?_, fun h => ?_⟩
  · simp only [luaScript, HMGET, HMSET, EXPIRE, h, tonumber, Function.update_same,
      Function.update_idem, Option.getD_none, Option.getD_some, Option.bind_some]
  · simp only [luaScript, HMGET, HMSET, EXPIRE, h, tonumber, Function.update_same,
      Function.update_idem, Option.getD_none, Option.getD_some, Option.bind_some]

/-- Witness of C12 (amended): the record with `tokens = "abc"` behaves as the record
with `tokens = 10` at capacity 10, and the record with `last_refill = "abc"` read at
`now = 130` as the record with `last_refill = 130`. -/
theorem redis_malformed_state_substitutes_witness :
    luaScript (Function.update (fun _ => none) "rate_limit:bucket:ip:10.0.0.1"
        (some (RedisRecord.mk (.text "abc") (.number 100) (some 300))))
      "rate_limit:bucket:ip:10.0.0.1" 10 1 1 100
    = luaScript (Function.update
        (Function.update (fun _ => none) "rate_limit:bucket:ip:10.0.0.1"
          (some (RedisRecord.mk (.text "abc") (.number 100) (some 300))))
        "rate_limit:bucket:ip:10.0.0.1"
        (some (RedisRecord.mk (.number 10) (.number 100) (some 300))))
      "rate_limit:bucket:ip:10.0.0.1" 10 1 1 100 :=
  (redis_malformed_state_substitutes
    (Function.update (fun _ => none) "rate_limit:bucket:ip:10.0.0.1"
      (some (RedisRecord.mk (.text "abc") (.number 100) (some 300))))
    "rate_limit:bucket:ip:10.0.0.1" "abc" (.number 100) (some 300) 10 1 1 100).1
    (by simp)

/-! ## Lazy creation and frame properties of the memory backend -/

/-- The limiter after `GetBucketState` holds, for every other identifier, the entry it
held before. -/
theorem MemoryTokenBucket.GetBucketState_buckets_other (mtb : MemoryTokenBucket)
    (identifier other : String) (created now : Int) (h : other ≠ identifier) :
    (mtb.GetBucketState identifier created now).1.buckets other = mtb.buckets other := by
  have hg : (mtb.getOrCreateBucket identifier created).1.buckets other = mtb.buckets other := by
    cases hb : mtb.buckets identifier with
    | none =>
      rw [MemoryTokenBucket.getOrCreateBucket_of_none mtb identifier created hb]
      simp [MemoryTokenBucket.store, Function.update_noteq h]
    | some b =>
      rw [MemoryTokenBucket.getOrCreateBucket_of_some mtb identifier created b hb]
  simp only [MemoryTokenBucket.GetBucketState]
  simp [MemoryTokenBucket.store, Function.update_noteq h, hg]

/-- C23. Lazy creation (`getOrCreateBucket`, memory backend): for an identifier with no
bucket the call inserts a bucket with `tokens = capacity` and `lastRefill` = the
creation time, returns it, and leaves every other map entry unchanged; for an
identifier that already has a bucket it returns that bucket and leaves the whole
limiter unchanged; a second call for the same identifier returns the bucket of the
first call and changes nothing, so one identifier never gets two buckets. -/
theorem getOrCreateBucket_lazy (mtb : MemoryTokenBucket) (identifier : String)
    (clock clock2 : Int) :
    (mtb.buckets identifier = none →
      (mtb.getOrCreateBucket identifier clock).2
        = tokenBucket.mk (mtb.capacity : ℚ) clock ∧
      (mtb.getOrCreateBucket identifier clock).1.buckets identifier
        = some (tokenBucket.mk (mtb.capacity : ℚ) clock) ∧
      (∀ other, other ≠ identifier →
        (mtb.getOrCreateBucket identifier clock).1.buckets other = mtb.buckets other)) ∧
    (∀ b, mtb.buckets identifier = some b →
      mtb.getOrCreateBucket identifier clock = (mtb, b)) ∧
    ((mtb.getOrCreateBucket identifier clock).1.getOrCreateBucket identifier clock2
      = ((mtb.getOrCreateBucket identifier clock).1,
         (mtb.getOrCreateBucket identifier clock).2)) := by
  refine ⟨fun hnone => ?_, fun b hb => ?_, ?_⟩
  · rw [MemoryTokenBucket.getOrCreateBucket_of_none mtb identifier clock hnone]
    refine ⟨rfl, MemoryTokenBucket.store_buckets_same _ _ _, fun other ho => ?_⟩
    simp [MemoryTokenBucket.store, Function.update_noteq ho]
  · exact MemoryTokenBucket.getOrCreateBucket_of_some mtb identifier clock b hb
  · cases hb : mtb.buckets identifier with
    | none =>
      rw [MemoryTokenBucket.getOrCreateBucket_of_none mtb identifier clock hb]
      exact MemoryTokenBucket.getOrCreateBucket_of_some _ identifier clock2 _
        (MemoryTokenBucket.store_buckets_same _ _ _)
    | some b =>
      rw [MemoryTokenBucket.getOrCreateBucket_of_some mtb identifier clock b hb]
      exact MemoryTokenBucket.getOrCreateBucket_of_some mtb identifier clock2 b hb

/-- Witness of C23: a new limiter of capacity 60, first reference at clock 5, second at
clock 9. -/
theorem getOrCreateBucket_lazy_witness :
    ((NewMemoryTokenBucket 60 1 1).getOrCreateBucket "ip:10.0.0.1" 5).2
      = tokenBucket.mk ((60 : Int) : ℚ) 5 ∧
    (((NewMemoryTokenBucket 60 1 1).getOrCreateBucket "ip:10.0.0.1" 5).1.getOrCreateBucket
        "ip:10.0.0.1" 9).2 = ((NewMemoryTokenBucket 60 1 1).getOrCreateBucket "ip:10.0.0.1" 5).2 :=
  ⟨((getOrCreateBucket_lazy (NewMemoryTokenBucket 60 1 1) "ip:10.0.0.1" 5 9).1 rfl).1,
   congrArg Prod.snd (getOrCreateBucket_lazy (NewMemoryTokenBucket 60 1 1) "ip:10.0.0.1" 5 9).2.2⟩

/-- C28. Identifier independence (memory backend): an `AllowRequestWithTokens` or
`GetBucketState` call on identifier `A` leaves the map entry of every other identifier
`B` as it was: an existing bucket keeps its tokens and `lastRefill`, and no entry other
than that of `A` is added or removed. -/
theorem memory_calls_touch_one_identifier (mtb : MemoryTokenBucket) (A B : String)
    (cost created now : Int) (h : B ≠ A) :
    (mtb.AllowRequestWithTokens A cost created now).1.buckets B = mtb.buckets B ∧
    (mtb.GetBucketState A created now).1.buckets B = mtb.buckets B :=
  ⟨mtb.AllowRequestWithTokens_buckets_other A B cost created now h,
   mtb.GetBucketState_buckets_other A B created now h⟩

/-- Witness of C28: a call on `ip:10.0.0.1` leaves the bucket of `ip:10.0.0.2` as it
was. -/
theorem memory_calls_touch_one_identifier_witness :
    (((NewMemoryTokenBucket 60 1 1).store "ip:10.0.0.2"
        (tokenBucket.mk 7 0)).AllowRequestWithTokens "ip:10.0.0.1" 1 5 5).1.buckets
        "ip:10.0.0.2"
      = ((NewMemoryTokenBucket 60 1 1).store "ip:10.0.0.2" (tokenBucket.mk 7 0)).buckets
        "ip:10.0.0.2" :=
  (memory_calls_touch_one_identifier
    ((NewMemoryTokenBucket 60 1 1).store "ip:10.0.0.2" (tokenBucket.mk 7 0))
    "ip:10.0.0.1" "ip:10.0.0.2" 1 5 5 (by decide)).1

/-- C29. The eviction sweep removes only idle buckets: after a sweep at time `now`
every bucket with `now - lastRefill <= 10 minutes`, the boundary of exactly ten minutes
included, is still in the map with its tokens and `lastRefill` unchanged, and the sweep
adds no entry. -/
theorem cleanup_keeps_recent (mtb : MemoryTokenBucket) (identifier : String)
    (b : tokenBucket) (now : Int) :
    (mtb.buckets identifier = some b → now - b.lastRefill ≤ 10 * Minute →
      (mtb.cleanup now).buckets identifier = some b) ∧
    (mtb.buckets identifier = some b → now - b.lastRefill = 600000000000 →
      (mtb.cleanup now).buckets identifier = some b) ∧
    (mtb.buckets identifier = none → (mtb.cleanup now).buckets identifier = none) := by
  refine ⟨fun hb hle => ?_, fun hb heq => ?_, fun hnone => ?_⟩
  · simp only [MemoryTokenBucket.cleanup, hb, Time.Sub]
    rw [if_neg (not_lt.mpr hle)]
  · simp only [MemoryTokenBucket.cleanup, hb, Time.Sub]
    rw [if_neg]
    rw [heq]
    decide
  · simp only [MemoryTokenBucket.cleanup, hnone]

/-- Witness of C29: a bucket last refilled exactly ten minutes before the sweep
stays. -/
theorem cleanup_keeps_recent_witness :
    (((NewMemoryTokenBucket 60 1 1).store "ip:10.0.0.1"
        (tokenBucket.mk 7 0)).cleanup 600000000000).buckets "ip:10.0.0.1"
      = some (tokenBucket.mk 7 0) :=
  (cleanup_keeps_recent
    ((NewMemoryTokenBucket 60 1 1).store "ip:10.0.0.1" (tokenBucket.mk 7 0))
    "ip:10.0.0.1" (tokenBucket.mk 7 0) 600000000000).1
    (by simp [MemoryTokenBucket.store]) (by decide)

/-! ## One step of each backend: time, expiry and bounds -/

/-- C24. The memory backend's step depends on time only through the elapsed time: two
Allow calls on buckets with the same stored tokens, under the same configuration and
cost and with the same difference `now - lastRefill`, at whatever absolute time stamps,
return the same allowed flag, remaining tokens and waitTime and leave the same token
count. -/
theorem memory_step_depends_on_elapsed (mtb1 mtb2 : MemoryTokenBucket)
    (identifier1 identifier2 : String) (cost created1 created2 now1 now2 : Int)
    (tokens : ℚ) (lastRefill1 lastRefill2 : Int)
    (hcap : mtb1.capacity = mtb2.capacity) (hrate : mtb1.refillRate = mtb2.refillRate)
    (hb1 : mtb1.buckets identifier1 = some (tokenBucket.mk tokens lastRefill1))
    (hb2 : mtb2.buckets identifier2 = some (tokenBucket.mk tokens lastRefill2))
    (helapsed : now1 - lastRefill1 = now2 - lastRefill2) :
    (mtb1.AllowRequestWithTokens identifier1 cost created1 now1).2
      = (mtb2.AllowRequestWithTokens identifier2 cost created2 now2).2 ∧
    ((mtb1.AllowRequestWithTokens identifier1 cost created1 now1).1.buckets identifier1).map
        tokenBucket.tokens
      = ((mtb2.AllowRequestWithTokens identifier2 cost created2 now2).1.buckets
          identifier2).map tokenBucket.tokens := by
  rw [mtb1.AllowRequestWithTokens_of_some identifier1 cost created1 now1 tokens lastRefill1
      hb1,
    mtb2.AllowRequestWithTokens_of_some identifier2 cost created2 now2 tokens lastRefill2
      hb2,
    hcap, hrate, helapsed]
  split_ifs
  · exact ⟨rfl, by simp only [MemoryTokenBucket.store_buckets_same, Option.map_some']⟩
  · exact ⟨rfl, by simp only [MemoryTokenBucket.store_buckets_same, Option.map_some']⟩

/-- Witness of C24: the same bucket contents three seconds after the last refill, once
stamped at 0 s and once at 1000 s. -/
theorem memory_step_depends_on_elapsed_witness :
    (((NewMemoryTokenBucket 10 1 1).store "ip:10.0.0.1"
        (tokenBucket.mk 2 0)).AllowRequestWithTokens "ip:10.0.0.1" 4 0 3000000000).2
      = (((NewMemoryTokenBucket 10 1 1).store "ip:10.0.0.1"
        (tokenBucket.mk 2 1000000000000)).AllowRequestWithTokens "ip:10.0.0.1" 4 0
          1003000000000).2 :=
  (memory_step_depends_on_elapsed
    ((NewMemoryTokenBucket 10 1 1).store "ip:10.0.0.1" (tokenBucket.mk 2 0))
    ((NewMemoryTokenBucket 10 1 1).store "ip:10.0.0.1" (tokenBucket.mk 2 1000000000000))
    "ip:10.0.0.1" "ip:10.0.0.1" 4 0 0 3000000000 1003000000000 2 0 1000000000000
    rfl rfl (by simp [MemoryTokenBucket.store]) (by simp [MemoryTokenBucket.store])
    (by decide)).1

/-- C25. Distributed backend expiry: every execution of the script, in the allowed
branch and in the denied branch alike, leaves under the key a record whose `tokens`
and `last_refill` fields are written (the new token count and `now`) and whose
time-to-live is 300 seconds. -/
theorem luaScript_writes_and_expires (store : RedisStore) (key : String)
    (capacity refill_rate tokens_needed now : ℚ) :
    (luaScript store key capacity refill_rate tokens_needed now).1 key
      = some (RedisRecord.mk
          (HashField.number
            (luaScript store key capacity refill_rate tokens_needed now).2.remaining_tokens)
          (HashField.number now) (some 300)) ∧
    ((luaScript store key capacity refill_rate tokens_needed now).2.allowed = 1 ∨
     (luaScript store key capacity refill_rate tokens_needed now).2.allowed = 0) := by
  simp only [luaScript]
  split_ifs
  · exact ⟨EXPIRE_HMSET_same _ _ _ _, Or.inl rfl⟩
  · exact ⟨EXPIRE_HMSET_same _ _ _ _, Or.inr rfl⟩

/-- C26. One step of the memory backend keeps the token bounds: if `capacity >= 0`,
`refillRate >= 0`, `cost >= 0`, `now >= lastRefill` and `0 <= tokens <= capacity` before
an `AllowRequestWithTokens` call, then the bucket holds `0 <= tokens <= capacity` after
it and the returned remaining value lies in the same range. -/
theorem memory_step_keeps_bounds (mtb : MemoryTokenBucket) (identifier : String)
    (cost created now : Int) (tokens : ℚ) (lastRefill : Int)
    (hb : mtb.buckets identifier = some (tokenBucket.mk tokens lastRefill))
    (hcap : 0 ≤ mtb.capacity) (hrate : 0 ≤ mtb.refillRate) (hcost : 0 ≤ cost)
    (hnow : lastRefill ≤ now) (h0 : 0 ≤ tokens) (_h1 : tokens ≤ (mtb.capacity : ℚ)) :
    (∃ b, (mtb.AllowRequestWithTokens identifier cost created now).1.buckets identifier
        = some b ∧ 0 ≤ b.tokens ∧ b.tokens ≤ (mtb.capacity : ℚ)) ∧
    0 ≤ (mtb.AllowRequestWithTokens identifier cost created now).2.remainingTokens ∧
    (mtb.AllowRequestWithTokens identifier cost created now).2.remainingTokens
      ≤ (mtb.capacity : ℚ) := by
  obtain ⟨r0, r1⟩ := refill_within_bounds mtb.capacity mtb.refillRate tokens lastRefill now
    hcap hrate h0 hnow
  have hq : (0 : ℚ) ≤ (cost : ℚ) := by exact_mod_cast hcost
  rw [mtb.AllowRequestWithTokens_of_some identifier cost created now tokens lastRefill hb]
  split_ifs with h
  · refine ⟨⟨_, MemoryTokenBucket.store_buckets_same _ _ _, ?_, ?_⟩, ?_, ?_⟩
    · show (0 : ℚ) ≤ _ - _
      linarith
    · show _ - _ ≤ (mtb.capacity : ℚ)
      linarith
    · show (0 : ℚ) ≤ _ - _
      linarith
    · show _ - _ ≤ (mtb.capacity : ℚ)
      linarith
  · exact ⟨⟨_, MemoryTokenBucket.store_buckets_same _ _ _, r0, r1⟩, r0, r1⟩

/-- Witness of C26: capacity 10 at one token per second, 2 tokens stamped at 0 s, a call
of cost 4 at 3 s. -/
theorem memory_step_keeps_bounds_witness :
    0 ≤ (((NewMemoryTokenBucket 10 1 1).store "ip:10.0.0.1"
        (tokenBucket.mk 2 0)).AllowRequestWithTokens "ip:10.0.0.1" 4 0
          3000000000).2.remainingTokens :=
  (memory_step_keeps_bounds
    ((NewMemoryTokenBucket 10 1 1).store "ip:10.0.0.1" (tokenBucket.mk 2 0))
    "ip:10.0.0.1" 4 0 3000000000 2 0
    (by simp [MemoryTokenBucket.store]) (by decide)
    (by norm_num [MemoryTokenBucket.store, NewMemoryTokenBucket]) (by decide) (by decide)
    (by norm_num) (by norm_num [MemoryTokenBucket.store, NewMemoryTokenBucket])).2.1

/-! ## Granularity of the wait time of the memory backend -/

/-- On the same state, configuration, cost and whole-second time stamps the memory
backend and the script take the same branch, report the same remaining tokens and store
the same token count and time stamp. -/
theorem backends_agree_on_tokens (mtb : MemoryTokenBucket) (identifier : String)
    (store : RedisStore) (key : String) (cost created : Int) (tokens : ℚ)
    (lastRefill now : Int)
    (hb : mtb.buckets identifier = some (tokenBucket.mk tokens (lastRefill * Second)))
    (hg : HMGET store key = (HashField.number tokens, HashField.number (lastRefill : ℚ))) :
    (luaScript store key (mtb.capacity : ℚ) mtb.refillRate (cost : ℚ) (now : ℚ)).2.allowed
      = (if (mtb.AllowRequestWithTokens identifier cost created (now * Second)).2.allowed
          = true then 1 else 0) ∧
    (luaScript store key (mtb.capacity : ℚ) mtb.refillRate (cost : ℚ)
        (now : ℚ)).2.remaining_tokens
      = (mtb.AllowRequestWithTokens identifier cost created (now * Second)).2.remainingTokens ∧
    (∃ t, (mtb.AllowRequestWithTokens identifier cost created (now * Second)).1.buckets
          identifier = some (tokenBucket.mk t (now * Second)) ∧
      (luaScript store key (mtb.capacity : ℚ) mtb.refillRate (cost : ℚ) (now : ℚ)).1 key
        = some (RedisRecord.mk (.number t) (.number (now : ℚ)) (some 300))) := by
  have he : ((now * Second - lastRefill * Second : Int) : ℚ) / 1000000000
      = (now : ℚ) - (lastRefill : ℚ) := by
    simp only [Second]
    push_cast
    ring
  have hm := mtb.AllowRequestWithTokens_of_some identifier cost created (now * Second)
    tokens (lastRefill * Second) hb
  rw [he] at hm
  obtain ⟨hr, hs⟩ := luaScript_of_numbers store key (mtb.capacity : ℚ) mtb.refillRate
    (cost : ℚ) (now : ℚ) tokens (lastRefill : ℚ) hg
  rw [hm, hs, hr]
  by_cases hc : min (mtb.capacity : ℚ)
      (tokens + ((now : ℚ) - (lastRefill : ℚ)) * mtb.refillRate) ≥ (cost : ℚ)
  · rw [if_pos hc, if_pos hc, if_pos hc]
    exact ⟨by simp, rfl, _, MemoryTokenBucket.store_buckets_same _ _ _, rfl⟩
  · rw [if_neg hc, if_neg hc, if_neg hc]
    exact ⟨by simp, rfl, _, MemoryTokenBucket.store_buckets_same _ _ _, rfl⟩

/-- C22 (evaluation at the failing input). Capacity 60, one token per second, the state
`(tokens = 0.5, lastRefill = 100 s)`, cost 1 at `now = 100 s`. The memory backend and
the script both deny with `remaining = 0.5` and keep 0.5 tokens stamped 100 s. The
memory backend returns `waitTime = 0`, where the script computes the wait 0.5 s
(500000000 ns). The store hands the script's answer `{0, 0.5, 0.5}` back as the integers
`{0, 0, 0}`, and the Go decoding of the distributed backend panics on them: it produces
no allowed flag, no remaining tokens and no waitTime. -/
theorem backends_differ_in_waitTime :
    (((NewMemoryTokenBucket 60 1 1).store "ip:10.0.0.1"
        (tokenBucket.mk (1 / 2) 100000000000)).AllowRequestWithTokens "ip:10.0.0.1" 1 0
          100000000000).2 = Decision.mk false (1 / 2) 0 ∧
    ((NewRedisTokenBucket 60 1 1).Eval
        (Function.update (fun _ => none) "rate_limit:bucket:ip:10.0.0.1"
          (some (RedisRecord.mk (.number (1 / 2)) (.number 100) (some 300))))
        "ip:10.0.0.1" 1 100).2 = LuaReply.mk 0 (1 / 2) (1 / 2) ∧
    floatToInt64 ((1 / 2 : ℚ) * (Second : ℚ)) = 500000000 ∧
    (LuaReply.mk 0 (1 / 2) (1 / 2)).toGo
      = GoValue.slice [GoValue.int64 0, GoValue.int64 0, GoValue.int64 0] ∧
    RedisTokenBucket.AllowRequestWithTokens
        (.ok ((NewRedisTokenBucket 60 1 1).Eval
          (Function.update (fun _ => none) "rate_limit:bucket:ip:10.0.0.1"
            (some (RedisRecord.mk (.number (1 / 2)) (.number 100) (some 300))))
          "ip:10.0.0.1" 1 100).2.toGo)
      = GoResult.panicked := by
  have hkey : (NewRedisTokenBucket 60 1 1).key "ip:10.0.0.1"
      = "rate_limit:bucket:ip:10.0.0.1" := by decide
  refine ⟨?_, ?_, ?_, ?_, RedisTokenBucket.AllowRequestWithTokens_toGo _⟩
  · norm_num [MemoryTokenBucket.AllowRequestWithTokens, MemoryTokenBucket.getOrCreateBucket,
      MemoryTokenBucket.store, NewMemoryTokenBucket, Duration.Seconds_eq, Time.Sub,
      wrapInt64, floatToInt64, Second]
  · simp only [RedisTokenBucket.Eval, hkey]
    norm_num [NewRedisTokenBucket, luaScript, HMGET, HMSET, EXPIRE, tonumber]
  · norm_num [floatToInt64, Second]
  · norm_num [LuaReply.toGo, floatToInt64]

/-! ## Several callers on one key -/

end Middleware
